import Mathlib

/-!
Verification of the Schnapsen bot-tournament repository
(`full_experiment.py` plus the bot cascade files under
`src/schnapsen/bots/`) against its natural-language specification.

The Python sources are shallowly embedded as executable Lean definitions:

* cards, moves and game phases mirror the types the bots consume from the
  game engine (`schnapsen.game` / `schnapsen.deck`);
* each bot's `get_move` cascade is transcribed into a pure function from the
  decision snapshot (legal moves, trump suit, phase, the leader's move when
  following) to the final candidate list, with the terminal
  `rng.choice(best_moves)` modelled as selection by an arbitrary index;
* `stable_int_seed` is embedded on top of a full executable SHA-256
  (FIPS 180-4) over UTF-8 bytes, machine words being `Nat` reduced mod 2^32;
* the tournament double loop of `main` is embedded as a fold threading the
  pairing/bot statistics, abstracted over the per-game outcome delivered by
  the external game engine;
* Python `float` arithmetic in the binomial test is modelled as exact
  rational arithmetic (all quantities compared in the claims are dyadic
  rationals that doubles represent exactly).
-/

/-! ## Card data model (from `schnapsen.deck` / `schnapsen.game`, as consumed by the bots) -/

/-- The four French suits of the Schnapsen deck. -/
inductive Suit
  | HEARTS
  | DIAMONDS
  | CLUBS
  | SPADES
  deriving DecidableEq, Repr

/-- The five ranks of the twenty-card Schnapsen deck. -/
inductive Rank
  | ACE
  | TEN
  | KING
  | QUEEN
  | JACK
  deriving DecidableEq, Repr

/-- `rank.name` of the Python enum member, as used by Bot7's
`card.rank.name in ("ACE", "TEN")` test. -/
def Rank.name : Rank → String
  | .ACE => "ACE"
  | .TEN => "TEN"
  | .KING => "KING"
  | .QUEEN => "QUEEN"
  | .JACK => "JACK"

/-- A playing card. -/
structure Card where
  suit : Suit
  rank : Rank
  deriving DecidableEq, Repr

/-- A move as the bots observe it: a regular card play, a marriage (which
plays its underlying regular card — the queen — into the trick; the marriage
suit is that card's suit), or a trump exchange (which plays no trick card). -/
inductive Move
  | regular (card : Card)
  | marriage (card : Card)
  | trumpExchange
  deriving DecidableEq, Repr

/-- `move.is_trump_exchange()`. -/
def Move.isTrumpExchange : Move → Bool
  | .trumpExchange => true
  | _ => false

/-- The card a move plays into the trick: `as_regular_move().card` for a
regular move, `as_marriage().underlying_regular_move().card` for a marriage,
and none for a trump exchange (where the Python accessors would raise). -/
def Move.playedCard : Move → Option Card
  | .regular c => some c
  | .marriage c => some c
  | .trumpExchange => none

/-- The game phase enum: `GamePhase.ONE` (stock open) / `GamePhase.TWO`
(stock closed). -/
inductive GamePhase
  | ONE
  | TWO
  deriving DecidableEq, Repr

/-! ## Cascade loop combinators

Every bot file repeats two imperative loops: the max-score tie-keeping loop
(`best_score = -math.inf; if score > best_score: reset; elif ==: append`)
and the min-cost tie-keeping loop (`cheapest_cost = math.inf; if cost <
cheapest_cost: reset; elif ==: append`).  Both are transcribed here once,
as structural recursions; since every integer exceeds `-math.inf`, the first
iteration of the Python loop always resets, which is exactly the split into
the head case below. -/

/-- Tail of the max-score loop: `b` is the current `best_score`, `best` the
current `best_moves`. -/
def keepMaxAux {α : Type} (score : α → Int) (b : Int) (best : List α) : List α → List α
  | [] => best
  | m :: ms =>
    if score m > b then keepMaxAux score (score m) [m] ms
    else if score m = b then keepMaxAux score b (best ++ [m]) ms
    else keepMaxAux score b best ms

/-- The `best_score` / `best_moves` loop of every bot file. -/
def keepMaxBy {α : Type} (score : α → Int) : List α → List α
  | [] => []
  | m :: ms => keepMaxAux score (score m) [m] ms

/-- Tail of the min-cost loop: `b` is the current `cheapest_cost`, `best` the
current cheapest list. -/
def keepMinAux {α : Type} (cost : α → Int) (b : Int) (best : List α) : List α → List α
  | [] => best
  | m :: ms =>
    if cost m < b then keepMinAux cost (cost m) [m] ms
    else if cost m = b then keepMinAux cost b (best ++ [m]) ms
    else keepMinAux cost b best ms

/-- The `cheapest_cost` / `cheapest_*` loop of bots 6, 7old, 7 and 8. -/
def keepMinBy {α : Type} (cost : α → Int) : List α → List α
  | [] => []
  | m :: ms => keepMinAux cost (cost m) [m] ms

theorem keepMaxAux_ne_nil {α : Type} (score : α → Int) :
    ∀ (L : List α) (b : Int) (best : List α), best ≠ [] →
      keepMaxAux score b best L ≠ [] := by
  intro L
  induction L with
  | nil => intro b best h; simpa [keepMaxAux] using h
  | cons m ms ih =>
    intro b best h
    simp only [keepMaxAux]
    split
    · exact ih _ _ (by simp)
    · split
      · exact ih _ _ (by simp)
      · exact ih _ _ h

theorem keepMaxBy_ne_nil {α : Type} (score : α → Int) (l : List α) (h : l ≠ []) :
    keepMaxBy score l ≠ [] := by
  match l with
  | [] => exact absurd rfl h
  | m :: ms => exact keepMaxAux_ne_nil score ms (score m) [m] (by simp)

theorem keepMaxAux_subset {α : Type} (score : α → Int) :
    ∀ (L : List α) (b : Int) (best : List α) (x : α),
      x ∈ keepMaxAux score b best L → x ∈ best ∨ x ∈ L := by
  intro L
  induction L with
  | nil => intro b best x hx; exact Or.inl (by simpa [keepMaxAux] using hx)
  | cons m ms ih =>
    intro b best x hx
    simp only [keepMaxAux] at hx
    split at hx
    · rcases ih _ _ _ hx with h | h
      · simp only [List.mem_singleton] at h; subst h; simp
      · simp [h]
    · split at hx
      · rcases ih _ _ _ hx with h | h
        · rcases List.mem_append.mp h with h | h
          · exact Or.inl h
          · simp only [List.mem_singleton] at h; subst h; simp
        · simp [h]
      · rcases ih _ _ _ hx with h | h
        · exact Or.inl h
        · simp [h]

theorem keepMaxBy_subset {α : Type} (score : α → Int) (l : List α) (x : α)
    (hx : x ∈ keepMaxBy score l) : x ∈ l := by
  match l with
  | [] => simp [keepMaxBy] at hx
  | m :: ms =>
    rcases keepMaxAux_subset score ms (score m) [m] x hx with h | h
    · simp only [List.mem_singleton] at h; subst h; simp
    · simp [h]

theorem keepMinAux_ne_nil {α : Type} (cost : α → Int) :
    ∀ (L : List α) (b : Int) (best : List α), best ≠ [] →
      keepMinAux cost b best L ≠ [] := by
  intro L
  induction L with
  | nil => intro b best h; simpa [keepMinAux] using h
  | cons m ms ih =>
    intro b best h
    simp only [keepMinAux]
    split
    · exact ih _ _ (by simp)
    · split
      · exact ih _ _ (by simp)
      · exact ih _ _ h

theorem keepMinBy_ne_nil {α : Type} (cost : α → Int) (l : List α) (h : l ≠ []) :
    keepMinBy cost l ≠ [] := by
  match l with
  | [] => exact absurd rfl h
  | m :: ms => exact keepMinAux_ne_nil cost ms (cost m) [m] (by simp)

theorem keepMinAux_subset {α : Type} (cost : α → Int) :
    ∀ (L : List α) (b : Int) (best : List α) (x : α),
      x ∈ keepMinAux cost b best L → x ∈ best ∨ x ∈ L := by
  intro L
  induction L with
  | nil => intro b best x hx; exact Or.inl (by simpa [keepMinAux] using hx)
  | cons m ms ih =>
    intro b best x hx
    simp only [keepMinAux] at hx
    split at hx
    · rcases ih _ _ _ hx with h | h
      · simp only [List.mem_singleton] at h; subst h; simp
      · simp [h]
    · split at hx
      · rcases ih _ _ _ hx with h | h
        · rcases List.mem_append.mp h with h | h
          · exact Or.inl h
          · simp only [List.mem_singleton] at h; subst h; simp
        · simp [h]
      · rcases ih _ _ _ hx with h | h
        · exact Or.inl h
        · simp [h]

theorem keepMinBy_subset {α : Type} (cost : α → Int) (l : List α) (x : α)
    (hx : x ∈ keepMinBy cost l) : x ∈ l := by
  match l with
  | [] => simp [keepMinBy] at hx
  | m :: ms =>
    rcases keepMinAux_subset cost ms (cost m) [m] x hx with h | h
    · simp only [List.mem_singleton] at h; subst h; simp
    · simp [h]

/-! ## Scoring rules (Rules 1–3 of the bot docstrings)

Each function is the body of the `score` computation of the final loop of
the corresponding bot file: immediate card points, plus the marriage bonus
(+40 trump / +20 otherwise) where the bot applies it, plus the flat +15
trump-exchange preference where the bot applies it. -/

/-- Bot1's score: immediate card points only (0 for a trump exchange). -/
def scorePlain (pts : Rank → Int) : Move → Int
  | .regular c => pts c.rank
  | .marriage c => pts c.rank
  | .trumpExchange => 0

/-- Bot2's score: card points plus the marriage bonus. -/
def scoreMarriage (pts : Rank → Int) (trump : Suit) : Move → Int
  | .regular c => pts c.rank
  | .marriage c => pts c.rank + (if c.suit = trump then 40 else 20)
  | .trumpExchange => 0

/-- The score of bots 3, 4, 6, 7old and 7: card points, marriage bonus,
and +15 for a trump exchange. -/
def scoreFull (pts : Rank → Int) (trump : Suit) : Move → Int
  | .regular c => pts c.rank
  | .marriage c => pts c.rank + (if c.suit = trump then 40 else 20)
  | .trumpExchange => 15

/-- Bot8's score: like `scoreFull` but the marriage bonus is gated to
Phase ONE (Rule 8 suppresses it in Phase TWO). -/
def scorePhase (pts : Rank → Int) (trump : Suit) (phase : GamePhase) : Move → Int
  | .regular c => pts c.rank
  | .marriage c =>
      pts c.rank + (if phase = GamePhase.ONE then (if c.suit = trump then 40 else 20) else 0)
  | .trumpExchange => 15

/-! ## The follower-side "winning reply" predicate

Each of the five bot files that follow a leader's card (`bot4.py`,
`bot6.py`, `bot7old.py`, `bot7.py`, `bot8.py`) contains its own textual copy
of the engine-mirroring `leader_wins` chain; each copy is transcribed
separately below, in the order of the Python `if`/`elif` chain. -/

/-- `bot4.py` lines 54–61. -/
def bot4_leaderWins (pts : Rank → Int) (leaderCard followerCard : Card) (trump : Suit) : Bool :=
  if leaderCard.suit = followerCard.suit then pts leaderCard.rank > pts followerCard.rank
  else if leaderCard.suit = trump then true
  else if followerCard.suit = trump then false
  else true

/-- `bot6.py` lines 55–62. -/
def bot6_leaderWins (pts : Rank → Int) (leaderCard followerCard : Card) (trump : Suit) : Bool :=
  if leaderCard.suit = followerCard.suit then pts leaderCard.rank > pts followerCard.rank
  else if leaderCard.suit = trump then true
  else if followerCard.suit = trump then false
  else true

/-- `bot7old.py` lines 101–108. -/
def bot7old_leaderWins (pts : Rank → Int) (leaderCard followerCard : Card) (trump : Suit) : Bool :=
  if leaderCard.suit = followerCard.suit then pts leaderCard.rank > pts followerCard.rank
  else if leaderCard.suit = trump then true
  else if followerCard.suit = trump then false
  else true

/-- `bot7.py` lines 81–88. -/
def bot7_leaderWins (pts : Rank → Int) (leaderCard followerCard : Card) (trump : Suit) : Bool :=
  if leaderCard.suit = followerCard.suit then pts leaderCard.rank > pts followerCard.rank
  else if leaderCard.suit = trump then true
  else if followerCard.suit = trump then false
  else true

/-- `bot8.py` lines 124–131. -/
def bot8_leaderWins (pts : Rank → Int) (leaderCard followerCard : Card) (trump : Suit) : Bool :=
  if leaderCard.suit = followerCard.suit then pts leaderCard.rank > pts followerCard.rank
  else if leaderCard.suit = trump then true
  else if followerCard.suit = trump then false
  else true

/-! ## Follower and leader narrowing rules -/

/-- The `winning_moves` list: card-playing moves whose card beats the
leader's (trump exchanges are skipped by the loop's `continue`).  `lw fc`
is the bot's `leader_wins` verdict against follower card `fc`. -/
def winnersOf (lw : Card → Bool) (moves : List Move) : List Move :=
  moves.filter fun m =>
    match m.playedCard with
    | some fc => !(lw fc)
    | none => false

/-- The `losing_moves` list. -/
def losersOf (lw : Card → Bool) (moves : List Move) : List Move :=
  moves.filter fun m =>
    match m.playedCard with
    | some fc => lw fc
    | none => false

/-- The card-point cost read inside the cheapest-card loops.  Those loops
only ever run over lists of card-playing moves, so the `none` branch is
unreachable there. -/
def cardCost (pts : Rank → Int) (m : Move) : Int :=
  match m.playedCard with
  | some c => pts c.rank
  | none => 0

/-- Rules 4–6 of bots 6, 7old, 7 and 8: if any winning reply exists keep the
cheapest winners, otherwise keep the cheapest losers. -/
def winCheapLoseCheap (pts : Rank → Int) (lw : Card → Bool) (moves : List Move) : List Move :=
  if winnersOf lw moves = [] then keepMinBy (cardCost pts) (losersOf lw moves)
  else keepMinBy (cardCost pts) (winnersOf lw moves)

/-- The `non_trump_moves` split of the cheapest-lead rule (Bot7old Rule 7,
Bot8 Rule 8): card-playing moves of non-trump suit. -/
def leadNonTrumps (trump : Suit) (moves : List Move) : List Move :=
  moves.filter fun m =>
    match m.playedCard with
    | some c => decide (c.suit ≠ trump)
    | none => false

/-- The `trump_moves` split of the cheapest-lead rule. -/
def leadTrumps (trump : Suit) (moves : List Move) : List Move :=
  moves.filter fun m =>
    match m.playedCard with
    | some c => decide (c.suit = trump)
    | none => false

/-- The cheapest-lead rule: prefer non-trump card plays (falling back to
trump plays), then keep only the cheapest of the preferred group. -/
def cheapestLead (pts : Rank → Int) (trump : Suit) (moves : List Move) : List Move :=
  let preferred :=
    if leadNonTrumps trump moves = [] then leadTrumps trump moves
    else leadNonTrumps trump moves
  keepMinBy (cardCost pts) preferred

/-- Bot7's Rule 7 filter: non-trump cards whose `rank.name` is `"ACE"` or
`"TEN"` (the Python membership test on the enum member's name). -/
def aggressiveLeads7 (trump : Suit) (moves : List Move) : List Move :=
  moves.filter fun m =>
    match m.playedCard with
    | some c => decide (c.suit ≠ trump) && decide (c.rank.name ∈ ["ACE", "TEN"])
    | none => false

/-- Bot8's Rule 7 filter: non-trump cards of rank `Rank.ACE` or `Rank.TEN`
(the enum comparison form). -/
def aggressiveLeads8 (trump : Suit) (moves : List Move) : List Move :=
  moves.filter fun m =>
    match m.playedCard with
    | some c => decide (c.suit ≠ trump) && (decide (c.rank = Rank.ACE) || decide (c.rank = Rank.TEN))
    | none => false

/-! ## The per-bot cascades

`botN_mtc` is the `moves_to_consider` value reaching the final scoring loop
of `botN.get_move`; `botN_candidates` is the `best_moves` list handed to
`rng.choice`; `botN_move` models the terminal uniform choice, with the
random source's draw abstracted as an arbitrary index `i` reduced modulo the
candidate count.  A trump-exchange lead would make the Python card accessor
raise; that (engine-unreachable) failure is modelled by the empty candidate
list, i.e. no move is produced. -/

/-- Uniform choice among a list, indexed by an arbitrary draw `i`. -/
def choiceAt {α : Type} (l : List α) (i : Nat) : Option α :=
  l.get? (i % l.length)

/-- Bot1 (GreedyPointsBot): score by immediate card points only. -/
def bot1_candidates (pts : Rank → Int) (moves : List Move) : List Move :=
  keepMaxBy (scorePlain pts) moves

def bot1_move (pts : Rank → Int) (moves : List Move) (i : Nat) : Option Move :=
  choiceAt (bot1_candidates pts moves) i

/-- Bot2 (MarriageBonusBot): card points plus marriage bonus. -/
def bot2_candidates (pts : Rank → Int) (trump : Suit) (moves : List Move) : List Move :=
  keepMaxBy (scoreMarriage pts trump) moves

def bot2_move (pts : Rank → Int) (trump : Suit) (moves : List Move) (i : Nat) : Option Move :=
  choiceAt (bot2_candidates pts trump moves) i

/-- Bot3 (TrumpExchangePreferenceBot): full scoring rule. -/
def bot3_candidates (pts : Rank → Int) (trump : Suit) (moves : List Move) : List Move :=
  keepMaxBy (scoreFull pts trump) moves

def bot3_move (pts : Rank → Int) (trump : Suit) (moves : List Move) (i : Nat) : Option Move :=
  choiceAt (bot3_candidates pts trump moves) i

/-- Bot4 (WinIfFollowerBot) Rule 4: as follower, restrict to winning replies
when any exist, else keep all legal moves.  This is the follower block keyed
on the leader's played card; a trump-exchange lead has none (the Python
accessor would raise there, modelled as the empty list). -/
def bot4_followerRule (pts : Rank → Int) (trump : Suit) :
    Option Card → List Move → List Move
  | none, _ => []
  | some lc, moves =>
    if winnersOf (fun fc => bot4_leaderWins pts lc fc trump) moves = [] then moves
    else winnersOf (fun fc => bot4_leaderWins pts lc fc trump) moves

def bot4_mtc (pts : Rank → Int) (trump : Suit) (leaderMove : Option Move)
    (moves : List Move) : List Move :=
  match leaderMove with
  | none => moves
  | some lm => bot4_followerRule pts trump lm.playedCard moves

def bot4_candidates (pts : Rank → Int) (trump : Suit) (leaderMove : Option Move)
    (moves : List Move) : List Move :=
  keepMaxBy (scoreFull pts trump) (bot4_mtc pts trump leaderMove moves)

def bot4_move (pts : Rank → Int) (trump : Suit) (leaderMove : Option Move)
    (moves : List Move) (i : Nat) : Option Move :=
  choiceAt (bot4_candidates pts trump leaderMove moves) i

/-- Bot6 (WinOrLoseCheapIfFollowerBot) Rules 4–6: as follower, win with the
cheapest winner if possible, else lose with the cheapest loser; keyed on the
leader's played card. -/
def bot6_followerRule (pts : Rank → Int) (trump : Suit) :
    Option Card → List Move → List Move
  | none, _ => []
  | some lc, moves => winCheapLoseCheap pts (fun fc => bot6_leaderWins pts lc fc trump) moves

def bot6_mtc (pts : Rank → Int) (trump : Suit) (leaderMove : Option Move)
    (moves : List Move) : List Move :=
  match leaderMove with
  | none => moves
  | some lm => bot6_followerRule pts trump lm.playedCard moves

def bot6_candidates (pts : Rank → Int) (trump : Suit) (leaderMove : Option Move)
    (moves : List Move) : List Move :=
  keepMaxBy (scoreFull pts trump) (bot6_mtc pts trump leaderMove moves)

def bot6_move (pts : Rank → Int) (trump : Suit) (leaderMove : Option Move)
    (moves : List Move) (i : Nat) : Option Move :=
  choiceAt (bot6_candidates pts trump leaderMove moves) i

/-- The follower block of Bot7old (Rules 4–6, as Bot6), keyed on the
leader's played card. -/
def bot7old_followerRule (pts : Rank → Int) (trump : Suit) :
    Option Card → List Move → List Move
  | none, _ => []
  | some lc, moves => winCheapLoseCheap pts (fun fc => bot7old_leaderWins pts lc fc trump) moves

/-- Bot7old (LeaderLowCardProbeBot): Rule 7 leads the cheapest non-trump
card (else cheapest trump) in Phase ONE; Rules 4–6 as Bot6. -/
def bot7old_mtc (pts : Rank → Int) (trump : Suit) (phase : GamePhase)
    (leaderMove : Option Move) (moves : List Move) : List Move :=
  match leaderMove with
  | none =>
    if phase = GamePhase.ONE then cheapestLead pts trump moves else moves
  | some lm => bot7old_followerRule pts trump lm.playedCard moves

def bot7old_candidates (pts : Rank → Int) (trump : Suit) (phase : GamePhase)
    (leaderMove : Option Move) (moves : List Move) : List Move :=
  keepMaxBy (scoreFull pts trump) (bot7old_mtc pts trump phase leaderMove moves)

def bot7old_move (pts : Rank → Int) (trump : Suit) (phase : GamePhase)
    (leaderMove : Option Move) (moves : List Move) (i : Nat) : Option Move :=
  choiceAt (bot7old_candidates pts trump phase leaderMove moves) i

/-- The follower block of Bot7 (Rules 4–6, as Bot6), keyed on the leader's
played card. -/
def bot7_followerRule (pts : Rank → Int) (trump : Suit) :
    Option Card → List Move → List Move
  | none, _ => []
  | some lc, moves => winCheapLoseCheap pts (fun fc => bot7_leaderWins pts lc fc trump) moves

/-- Bot7 (AggressiveNonTrumpLeadBot): Rule 7 prefers non-trump Ace/Ten
leads in Phase ONE (keeping all moves when none exist); Rules 4–6 as Bot6. -/
def bot7_mtc (pts : Rank → Int) (trump : Suit) (phase : GamePhase)
    (leaderMove : Option Move) (moves : List Move) : List Move :=
  match leaderMove with
  | none =>
    if phase = GamePhase.ONE then
      if aggressiveLeads7 trump moves = [] then moves else aggressiveLeads7 trump moves
    else moves
  | some lm => bot7_followerRule pts trump lm.playedCard moves

def bot7_candidates (pts : Rank → Int) (trump : Suit) (phase : GamePhase)
    (leaderMove : Option Move) (moves : List Move) : List Move :=
  keepMaxBy (scoreFull pts trump) (bot7_mtc pts trump phase leaderMove moves)

def bot7_move (pts : Rank → Int) (trump : Suit) (phase : GamePhase)
    (leaderMove : Option Move) (moves : List Move) (i : Nat) : Option Move :=
  choiceAt (bot7_candidates pts trump phase leaderMove moves) i

/-- The follower block of Bot8 (Rules 4–6, as Bot6), keyed on the leader's
played card. -/
def bot8_followerRule (pts : Rank → Int) (trump : Suit) :
    Option Card → List Move → List Move
  | none, _ => []
  | some lc, moves => winCheapLoseCheap pts (fun fc => bot8_leaderWins pts lc fc trump) moves

/-- Bot8 (PhaseTwoStrictBot): Rule 8 leads cheap in Phase TWO, Rule 7
prefers non-trump Ace/Ten leads in Phase ONE; Rules 4–6 as Bot6. -/
def bot8_mtc (pts : Rank → Int) (trump : Suit) (phase : GamePhase)
    (leaderMove : Option Move) (moves : List Move) : List Move :=
  match leaderMove with
  | none =>
    if phase = GamePhase.TWO then cheapestLead pts trump moves
    else if phase = GamePhase.ONE then
      if aggressiveLeads8 trump moves = [] then moves else aggressiveLeads8 trump moves
    else moves
  | some lm => bot8_followerRule pts trump lm.playedCard moves

def bot8_candidates (pts : Rank → Int) (trump : Suit) (phase : GamePhase)
    (leaderMove : Option Move) (moves : List Move) : List Move :=
  keepMaxBy (scorePhase pts trump phase) (bot8_mtc pts trump phase leaderMove moves)

def bot8_move (pts : Rank → Int) (trump : Suit) (phase : GamePhase)
    (leaderMove : Option Move) (moves : List Move) (i : Nat) : Option Move :=
  choiceAt (bot8_candidates pts trump phase leaderMove moves) i

/-! ## Legal decision snapshots

In every reachable Schnapsen decision point the legal-move set contains at
least one card-playing move (the hand is non-empty; trump exchange and
marriage are additional options of the leader), and the leader's committed
move handed to a follower always plays a card.  `LegalSnapshot` captures
exactly these facts about a snapshot. -/

/-- Does the move set contain a card-playing (non-trump-exchange) move? -/
def hasCardMove (moves : List Move) : Bool :=
  moves.any fun m => !m.isTrumpExchange

/-- Legality of a decision snapshot, as guaranteed by the engine. -/
def LegalSnapshot (moves : List Move) (leaderMove : Option Move) : Prop :=
  moves ≠ [] ∧ hasCardMove moves = true ∧
    ∀ lm, leaderMove = some lm → lm.playedCard.isSome = true

/-- The engine's card-point valuation (`SchnapsenTrickScorer.rank_to_points`).
Modelled from the spec: the valuation itself lives in the external
`schnapsen.game` engine (spec §6, "a card-point valuation function mapping
rank → integer points"); the standard Schnapsen values are used for the
concrete instances below.  All universally-quantified theorems hold for an
arbitrary valuation. -/
def SCORES : Rank → Int
  | .ACE => 11
  | .TEN => 10
  | .KING => 4
  | .QUEEN => 3
  | .JACK => 2

/-! ## Non-emptiness and subset facts about the narrowing rules -/

theorem exists_played_card {moves : List Move} (h : hasCardMove moves = true) :
    ∃ m ∈ moves, ∃ c, m.playedCard = some c := by
  rcases List.any_eq_true.mp h with ⟨m, hm, hcard⟩
  refine ⟨m, hm, ?_⟩
  cases m with
  | regular c => exact ⟨c, rfl⟩
  | marriage c => exact ⟨c, rfl⟩
  | trumpExchange => simp [Move.isTrumpExchange] at hcard

theorem winnersOf_subset (lw : Card → Bool) (moves : List Move) :
    ∀ x ∈ winnersOf lw moves, x ∈ moves := fun _ hx => List.mem_of_mem_filter hx

theorem losersOf_subset (lw : Card → Bool) (moves : List Move) :
    ∀ x ∈ losersOf lw moves, x ∈ moves := fun _ hx => List.mem_of_mem_filter hx

/-- Every card-playing move lands in `winning_moves` or `losing_moves`, so
when there is no winner the loser list is inhabited. -/
theorem losersOf_ne_nil (lw : Card → Bool) (moves : List Move)
    (hc : hasCardMove moves = true) (hw : winnersOf lw moves = []) :
    losersOf lw moves ≠ [] := by
  rcases exists_played_card hc with ⟨m, hm, c, hpc⟩
  have hnotwin : m ∉ winnersOf lw moves := by simp [hw]
  have hlw : lw c = true := by
    by_contra hlw
    exact hnotwin (List.mem_filter.mpr ⟨hm, by simp [hpc, hlw]⟩)
  exact List.ne_nil_of_mem (List.mem_filter.mpr ⟨hm, by simp [losersOf, hpc, hlw]⟩)

theorem winCheapLoseCheap_ne_nil (pts : Rank → Int) (lw : Card → Bool)
    (moves : List Move) (hc : hasCardMove moves = true) :
    winCheapLoseCheap pts lw moves ≠ [] := by
  unfold winCheapLoseCheap
  split
  · exact keepMinBy_ne_nil _ _ (losersOf_ne_nil lw moves hc (by assumption))
  · exact keepMinBy_ne_nil _ _ (by assumption)

theorem winCheapLoseCheap_subset (pts : Rank → Int) (lw : Card → Bool)
    (moves : List Move) : ∀ x ∈ winCheapLoseCheap pts lw moves, x ∈ moves := by
  intro x hx
  unfold winCheapLoseCheap at hx
  split at hx
  · exact losersOf_subset lw moves x (keepMinBy_subset _ _ _ hx)
  · exact winnersOf_subset lw moves x (keepMinBy_subset _ _ _ hx)

/-- When no non-trump card lead exists, some trump card lead does. -/
theorem leadTrumps_ne_nil (trump : Suit) (moves : List Move)
    (hc : hasCardMove moves = true) (hnt : leadNonTrumps trump moves = []) :
    leadTrumps trump moves ≠ [] := by
  rcases exists_played_card hc with ⟨m, hm, c, hpc⟩
  have hnotnt : m ∉ leadNonTrumps trump moves := by simp [hnt]
  have hsuit : c.suit = trump := by
    by_contra hsuit
    exact hnotnt (List.mem_filter.mpr ⟨hm, by simp [hpc, hsuit]⟩)
  exact List.ne_nil_of_mem (List.mem_filter.mpr ⟨hm, by simp [leadTrumps, hpc, hsuit]⟩)

theorem cheapestLead_ne_nil (pts : Rank → Int) (trump : Suit) (moves : List Move)
    (hc : hasCardMove moves = true) : cheapestLead pts trump moves ≠ [] := by
  unfold cheapestLead
  split
  · exact keepMinBy_ne_nil _ _ (leadTrumps_ne_nil trump moves hc (by assumption))
  · exact keepMinBy_ne_nil _ _ (by assumption)

theorem cheapestLead_subset (pts : Rank → Int) (trump : Suit) (moves : List Move) :
    ∀ x ∈ cheapestLead pts trump moves, x ∈ moves := by
  intro x hx
  unfold cheapestLead at hx
  split at hx
  · exact List.mem_of_mem_filter (keepMinBy_subset _ _ _ hx)
  · exact List.mem_of_mem_filter (keepMinBy_subset _ _ _ hx)

/-! ## Per-bot `moves_to_consider` is non-empty and a subset of the legal set -/

theorem bot4_mtc_ne_nil (pts : Rank → Int) (trump : Suit) (leaderMove : Option Move)
    (moves : List Move) (h : LegalSnapshot moves leaderMove) :
    bot4_mtc pts trump leaderMove moves ≠ [] := by
  obtain ⟨hne, _, hlead⟩ := h
  cases leaderMove with
  | none => simpa [bot4_mtc] using hne
  | some lm =>
    obtain ⟨lc, hc⟩ := Option.isSome_iff_exists.mp (hlead lm rfl)
    simp only [bot4_mtc, hc, bot4_followerRule]
    split
    · exact hne
    · assumption

theorem bot4_mtc_subset (pts : Rank → Int) (trump : Suit) (leaderMove : Option Move)
    (moves : List Move) : ∀ x ∈ bot4_mtc pts trump leaderMove moves, x ∈ moves := by
  intro x hx
  cases leaderMove with
  | none => simpa [bot4_mtc] using hx
  | some lm =>
    simp only [bot4_mtc] at hx
    cases hc : lm.playedCard with
    | none => rw [hc] at hx; simp [bot4_followerRule] at hx
    | some lc =>
      rw [hc] at hx
      simp only [bot4_followerRule] at hx
      split at hx
      · exact hx
      · exact winnersOf_subset _ _ x hx

theorem bot6_mtc_ne_nil (pts : Rank → Int) (trump : Suit) (leaderMove : Option Move)
    (moves : List Move) (h : LegalSnapshot moves leaderMove) :
    bot6_mtc pts trump leaderMove moves ≠ [] := by
  obtain ⟨hne, hcard, hlead⟩ := h
  cases leaderMove with
  | none => simpa [bot6_mtc] using hne
  | some lm =>
    obtain ⟨lc, hc⟩ := Option.isSome_iff_exists.mp (hlead lm rfl)
    simp only [bot6_mtc, hc, bot6_followerRule]
    exact winCheapLoseCheap_ne_nil pts _ moves hcard

theorem bot6_mtc_subset (pts : Rank → Int) (trump : Suit) (leaderMove : Option Move)
    (moves : List Move) : ∀ x ∈ bot6_mtc pts trump leaderMove moves, x ∈ moves := by
  intro x hx
  cases leaderMove with
  | none => simpa [bot6_mtc] using hx
  | some lm =>
    simp only [bot6_mtc] at hx
    cases hc : lm.playedCard with
    | none => rw [hc] at hx; simp [bot6_followerRule] at hx
    | some lc =>
      rw [hc] at hx
      simp only [bot6_followerRule] at hx
      exact winCheapLoseCheap_subset pts _ moves x hx

theorem bot7old_mtc_ne_nil (pts : Rank → Int) (trump : Suit) (phase : GamePhase)
    (leaderMove : Option Move) (moves : List Move) (h : LegalSnapshot moves leaderMove) :
    bot7old_mtc pts trump phase leaderMove moves ≠ [] := by
  obtain ⟨hne, hcard, hlead⟩ := h
  cases leaderMove with
  | none =>
    simp only [bot7old_mtc]
    split
    · exact cheapestLead_ne_nil pts trump moves hcard
    · exact hne
  | some lm =>
    obtain ⟨lc, hc⟩ := Option.isSome_iff_exists.mp (hlead lm rfl)
    simp only [bot7old_mtc, hc, bot7old_followerRule]
    exact winCheapLoseCheap_ne_nil pts _ moves hcard

theorem bot7old_mtc_subset (pts : Rank → Int) (trump : Suit) (phase : GamePhase)
    (leaderMove : Option Move) (moves : List Move) :
    ∀ x ∈ bot7old_mtc pts trump phase leaderMove moves, x ∈ moves := by
  intro x hx
  cases leaderMove with
  | none =>
    simp only [bot7old_mtc] at hx
    split at hx
    · exact cheapestLead_subset pts trump moves x hx
    · exact hx
  | some lm =>
    simp only [bot7old_mtc] at hx
    cases hc : lm.playedCard with
    | none => rw [hc] at hx; simp [bot7old_followerRule] at hx
    | some lc =>
      rw [hc] at hx
      simp only [bot7old_followerRule] at hx
      exact winCheapLoseCheap_subset pts _ moves x hx

theorem bot7_mtc_ne_nil (pts : Rank → Int) (trump : Suit) (phase : GamePhase)
    (leaderMove : Option Move) (moves : List Move) (h : LegalSnapshot moves leaderMove) :
    bot7_mtc pts trump phase leaderMove moves ≠ [] := by
  obtain ⟨hne, hcard, hlead⟩ := h
  cases leaderMove with
  | none =>
    simp only [bot7_mtc]
    split
    · split
      · exact hne
      · assumption
    · exact hne
  | some lm =>
    obtain ⟨lc, hc⟩ := Option.isSome_iff_exists.mp (hlead lm rfl)
    simp only [bot7_mtc, hc, bot7_followerRule]
    exact winCheapLoseCheap_ne_nil pts _ moves hcard

theorem bot7_mtc_subset (pts : Rank → Int) (trump : Suit) (phase : GamePhase)
    (leaderMove : Option Move) (moves : List Move) :
    ∀ x ∈ bot7_mtc pts trump phase leaderMove moves, x ∈ moves := by
  intro x hx
  cases leaderMove with
  | none =>
    simp only [bot7_mtc] at hx
    split at hx
    · split at hx
      · exact hx
      · exact List.mem_of_mem_filter hx
    · exact hx
  | some lm =>
    simp only [bot7_mtc] at hx
    cases hc : lm.playedCard with
    | none => rw [hc] at hx; simp [bot7_followerRule] at hx
    | some lc =>
      rw [hc] at hx
      simp only [bot7_followerRule] at hx
      exact winCheapLoseCheap_subset pts _ moves x hx

theorem bot8_mtc_ne_nil (pts : Rank → Int) (trump : Suit) (phase : GamePhase)
    (leaderMove : Option Move) (moves : List Move) (h : LegalSnapshot moves leaderMove) :
    bot8_mtc pts trump phase leaderMove moves ≠ [] := by
  obtain ⟨hne, hcard, hlead⟩ := h
  cases leaderMove with
  | none =>
    simp only [bot8_mtc]
    split
    · exact cheapestLead_ne_nil pts trump moves hcard
    · split
      · split
        · exact hne
        · assumption
      · exact hne
  | some lm =>
    obtain ⟨lc, hc⟩ := Option.isSome_iff_exists.mp (hlead lm rfl)
    simp only [bot8_mtc, hc, bot8_followerRule]
    exact winCheapLoseCheap_ne_nil pts _ moves hcard

theorem bot8_mtc_subset (pts : Rank → Int) (trump : Suit) (phase : GamePhase)
    (leaderMove : Option Move) (moves : List Move) :
    ∀ x ∈ bot8_mtc pts trump phase leaderMove moves, x ∈ moves := by
  intro x hx
  cases leaderMove with
  | none =>
    simp only [bot8_mtc] at hx
    split at hx
    · exact cheapestLead_subset pts trump moves x hx
    · split at hx
      · split at hx
        · exact hx
        · exact List.mem_of_mem_filter hx
      · exact hx
  | some lm =>
    simp only [bot8_mtc] at hx
    cases hc : lm.playedCard with
    | none => rw [hc] at hx; simp [bot8_followerRule] at hx
    | some lc =>
      rw [hc] at hx
      simp only [bot8_followerRule] at hx
      exact winCheapLoseCheap_subset pts _ moves x hx

/-! ## Candidate lists: non-empty under legality, and always subsets -/

theorem choiceAt_mem {α : Type} {l : List α} {i : Nat} {m : α}
    (h : choiceAt l i = some m) : m ∈ l := List.get?_mem h

theorem bot1_candidates_ne_nil (pts : Rank → Int) (moves : List Move)
    (hne : moves ≠ []) : bot1_candidates pts moves ≠ [] :=
  keepMaxBy_ne_nil _ _ hne

theorem bot2_candidates_ne_nil (pts : Rank → Int) (trump : Suit) (moves : List Move)
    (hne : moves ≠ []) : bot2_candidates pts trump moves ≠ [] :=
  keepMaxBy_ne_nil _ _ hne

theorem bot3_candidates_ne_nil (pts : Rank → Int) (trump : Suit) (moves : List Move)
    (hne : moves ≠ []) : bot3_candidates pts trump moves ≠ [] :=
  keepMaxBy_ne_nil _ _ hne

theorem bot4_candidates_ne_nil (pts : Rank → Int) (trump : Suit)
    (leaderMove : Option Move) (moves : List Move) (h : LegalSnapshot moves leaderMove) :
    bot4_candidates pts trump leaderMove moves ≠ [] :=
  keepMaxBy_ne_nil _ _ (bot4_mtc_ne_nil pts trump leaderMove moves h)

theorem bot6_candidates_ne_nil (pts : Rank → Int) (trump : Suit)
    (leaderMove : Option Move) (moves : List Move) (h : LegalSnapshot moves leaderMove) :
    bot6_candidates pts trump leaderMove moves ≠ [] :=
  keepMaxBy_ne_nil _ _ (bot6_mtc_ne_nil pts trump leaderMove moves h)

theorem bot7old_candidates_ne_nil (pts : Rank → Int) (trump : Suit) (phase : GamePhase)
    (leaderMove : Option Move) (moves : List Move) (h : LegalSnapshot moves leaderMove) :
    bot7old_candidates pts trump phase leaderMove moves ≠ [] :=
  keepMaxBy_ne_nil _ _ (bot7old_mtc_ne_nil pts trump phase leaderMove moves h)

theorem bot7_candidates_ne_nil (pts : Rank → Int) (trump : Suit) (phase : GamePhase)
    (leaderMove : Option Move) (moves : List Move) (h : LegalSnapshot moves leaderMove) :
    bot7_candidates pts trump phase leaderMove moves ≠ [] :=
  keepMaxBy_ne_nil _ _ (bot7_mtc_ne_nil pts trump phase leaderMove moves h)

theorem bot8_candidates_ne_nil (pts : Rank → Int) (trump : Suit) (phase : GamePhase)
    (leaderMove : Option Move) (moves : List Move) (h : LegalSnapshot moves leaderMove) :
    bot8_candidates pts trump phase leaderMove moves ≠ [] :=
  keepMaxBy_ne_nil _ _ (bot8_mtc_ne_nil pts trump phase leaderMove moves h)

theorem bot1_candidates_subset (pts : Rank → Int) (moves : List Move) :
    ∀ x ∈ bot1_candidates pts moves, x ∈ moves :=
  fun x hx => keepMaxBy_subset _ _ x hx

theorem bot2_candidates_subset (pts : Rank → Int) (trump : Suit) (moves : List Move) :
    ∀ x ∈ bot2_candidates pts trump moves, x ∈ moves :=
  fun x hx => keepMaxBy_subset _ _ x hx

theorem bot3_candidates_subset (pts : Rank → Int) (trump : Suit) (moves : List Move) :
    ∀ x ∈ bot3_candidates pts trump moves, x ∈ moves :=
  fun x hx => keepMaxBy_subset _ _ x hx

theorem bot4_candidates_subset (pts : Rank → Int) (trump : Suit)
    (leaderMove : Option Move) (moves : List Move) :
    ∀ x ∈ bot4_candidates pts trump leaderMove moves, x ∈ moves :=
  fun x hx => bot4_mtc_subset pts trump leaderMove moves x (keepMaxBy_subset _ _ x hx)

theorem bot6_candidates_subset (pts : Rank → Int) (trump : Suit)
    (leaderMove : Option Move) (moves : List Move) :
    ∀ x ∈ bot6_candidates pts trump leaderMove moves, x ∈ moves :=
  fun x hx => bot6_mtc_subset pts trump leaderMove moves x (keepMaxBy_subset _ _ x hx)

theorem bot7old_candidates_subset (pts : Rank → Int) (trump : Suit) (phase : GamePhase)
    (leaderMove : Option Move) (moves : List Move) :
    ∀ x ∈ bot7old_candidates pts trump phase leaderMove moves, x ∈ moves :=
  fun x hx => bot7old_mtc_subset pts trump phase leaderMove moves x (keepMaxBy_subset _ _ x hx)

theorem bot7_candidates_subset (pts : Rank → Int) (trump : Suit) (phase : GamePhase)
    (leaderMove : Option Move) (moves : List Move) :
    ∀ x ∈ bot7_candidates pts trump phase leaderMove moves, x ∈ moves :=
  fun x hx => bot7_mtc_subset pts trump phase leaderMove moves x (keepMaxBy_subset _ _ x hx)

theorem bot8_candidates_subset (pts : Rank → Int) (trump : Suit) (phase : GamePhase)
    (leaderMove : Option Move) (moves : List Move) :
    ∀ x ∈ bot8_candidates pts trump phase leaderMove moves, x ∈ moves :=
  fun x hx => bot8_mtc_subset pts trump phase leaderMove moves x (keepMaxBy_subset _ _ x hx)

/-! ## Claim C3 — the follower-side "winning reply" predicate -/

/-- The leader-wins condition exactly as claim C3 words it: a flat
three-way disjunction (share suit with higher leader points; or leader's
suit is trump; or neither suit is trump and the suits differ). -/
def claimedLeaderWinsDisjunction (pts : Rank → Int) (lc fc : Card) (trump : Suit) : Prop :=
  (lc.suit = fc.suit ∧ pts lc.rank > pts fc.rank) ∨
  lc.suit = trump ∨
  (lc.suit ≠ trump ∧ fc.suit ≠ trump ∧ lc.suit ≠ fc.suit)

/-- Counterexample to claim C3 as stated: with trump HEARTS, leader JACK of
HEARTS and follower ACE of HEARTS, the code's predicate makes the follower
win (shared suit, higher follower points), but the claim's flat disjunction
declares the leader the winner through its unguarded "leader's card's suit
is trump" disjunct. -/
theorem claim_C3_counterexample :
    ¬ (bot4_leaderWins SCORES ⟨Suit.HEARTS, Rank.JACK⟩ ⟨Suit.HEARTS, Rank.ACE⟩ Suit.HEARTS
         = true ↔
       claimedLeaderWinsDisjunction SCORES ⟨Suit.HEARTS, Rank.JACK⟩ ⟨Suit.HEARTS, Rank.ACE⟩
         Suit.HEARTS) := by
  unfold claimedLeaderWinsDisjunction
  decide

/-- Claim C3, amended: the "leader's card's suit is trump" disjunct only
applies when the suits differ (the shared-suit comparison takes precedence
in the code's chain).  With that guard added: for every card-point
valuation, cards and trump suit, the predicate transcribed from each of the
five bot files is one and the same function; the leader wins iff the
amended disjunction holds; and the follower wins (the predicate is false)
iff the cards share a suit with follower points at least the leader's, or
the follower's suit is trump while the leader's is not. -/
theorem claim_C3_winning_reply (pts : Rank → Int) (lc fc : Card) (trump : Suit) :
    (bot4_leaderWins = bot6_leaderWins ∧ bot4_leaderWins = bot7old_leaderWins ∧
     bot4_leaderWins = bot7_leaderWins ∧ bot4_leaderWins = bot8_leaderWins) ∧
    (bot4_leaderWins pts lc fc trump = true ↔
      (lc.suit = fc.suit ∧ pts lc.rank > pts fc.rank) ∨
      (lc.suit ≠ fc.suit ∧ lc.suit = trump) ∨
      (lc.suit ≠ trump ∧ fc.suit ≠ trump ∧ lc.suit ≠ fc.suit)) ∧
    (bot4_leaderWins pts lc fc trump = false ↔
      (lc.suit = fc.suit ∧ pts fc.rank ≥ pts lc.rank) ∨
      (fc.suit = trump ∧ lc.suit ≠ trump)) := by
  refine ⟨⟨rfl, rfl, rfl, rfl⟩, ?_, ?_⟩
  · by_cases h1 : lc.suit = fc.suit <;> by_cases h2 : lc.suit = trump <;>
      by_cases h3 : fc.suit = trump <;>
      simp [bot4_leaderWins, h1, h2, h3] <;> first | omega | simp_all
  · by_cases h1 : lc.suit = fc.suit <;> by_cases h2 : lc.suit = trump <;>
      by_cases h3 : fc.suit = trump <;>
      simp [bot4_leaderWins, h1, h2, h3]

/-! ## Claim C4 — no cascade rule ever empties the candidate set -/

/-- Claim C4: on every legal decision snapshot (non-empty legal-move set
containing a card-playing move, and a card-playing leader move when
following — exactly what the engine guarantees), every bot variant's
intermediate `moves_to_consider` and final `best_moves` lists are
non-empty, so the terminal random choice is over a non-empty set.  This
covers Bot7old's and Bot8's leader-phase cheapest-lead rules and the
follower win-cheap/lose-cheap rules of Bot6, Bot7old, Bot7 and Bot8. -/
theorem claim_C4_cascade_never_empty (pts : Rank → Int) (trump : Suit)
    (phase : GamePhase) (leaderMove : Option Move) (moves : List Move)
    (h : LegalSnapshot moves leaderMove) :
    bot1_candidates pts moves ≠ [] ∧
    bot2_candidates pts trump moves ≠ [] ∧
    bot3_candidates pts trump moves ≠ [] ∧
    bot4_mtc pts trump leaderMove moves ≠ [] ∧
    bot4_candidates pts trump leaderMove moves ≠ [] ∧
    bot6_mtc pts trump leaderMove moves ≠ [] ∧
    bot6_candidates pts trump leaderMove moves ≠ [] ∧
    bot7old_mtc pts trump phase leaderMove moves ≠ [] ∧
    bot7old_candidates pts trump phase leaderMove moves ≠ [] ∧
    bot7_mtc pts trump phase leaderMove moves ≠ [] ∧
    bot7_candidates pts trump phase leaderMove moves ≠ [] ∧
    bot8_mtc pts trump phase leaderMove moves ≠ [] ∧
    bot8_candidates pts trump phase leaderMove moves ≠ [] := by
  refine ⟨bot1_candidates_ne_nil pts moves h.1,
    bot2_candidates_ne_nil pts trump moves h.1,
    bot3_candidates_ne_nil pts trump moves h.1,
    bot4_mtc_ne_nil pts trump leaderMove moves h,
    bot4_candidates_ne_nil pts trump leaderMove moves h,
    bot6_mtc_ne_nil pts trump leaderMove moves h,
    bot6_candidates_ne_nil pts trump leaderMove moves h,
    bot7old_mtc_ne_nil pts trump phase leaderMove moves h,
    bot7old_candidates_ne_nil pts trump phase leaderMove moves h,
    bot7_mtc_ne_nil pts trump phase leaderMove moves h,
    bot7_candidates_ne_nil pts trump phase leaderMove moves h,
    bot8_mtc_ne_nil pts trump phase leaderMove moves h,
    bot8_candidates_ne_nil pts trump phase leaderMove moves h⟩

/-- A concrete follower snapshot: trump HEARTS, the leader led the QUEEN of
SPADES, and the hand can follow with the JACK of HEARTS or the ACE of
CLUBS. -/
def demoMoves : List Move :=
  [Move.regular ⟨Suit.HEARTS, Rank.JACK⟩, Move.regular ⟨Suit.CLUBS, Rank.ACE⟩]

def demoLead : Option Move := some (Move.regular ⟨Suit.SPADES, Rank.QUEEN⟩)

theorem demo_legal : LegalSnapshot demoMoves demoLead :=
  ⟨by decide, by decide, by intro lm h; cases h; rfl⟩

/-- Witness for C4 at the concrete snapshot above. -/
theorem claim_C4_witness :
    bot1_candidates SCORES demoMoves ≠ [] ∧
    bot2_candidates SCORES Suit.HEARTS demoMoves ≠ [] ∧
    bot3_candidates SCORES Suit.HEARTS demoMoves ≠ [] ∧
    bot4_mtc SCORES Suit.HEARTS demoLead demoMoves ≠ [] ∧
    bot4_candidates SCORES Suit.HEARTS demoLead demoMoves ≠ [] ∧
    bot6_mtc SCORES Suit.HEARTS demoLead demoMoves ≠ [] ∧
    bot6_candidates SCORES Suit.HEARTS demoLead demoMoves ≠ [] ∧
    bot7old_mtc SCORES Suit.HEARTS GamePhase.ONE demoLead demoMoves ≠ [] ∧
    bot7old_candidates SCORES Suit.HEARTS GamePhase.ONE demoLead demoMoves ≠ [] ∧
    bot7_mtc SCORES Suit.HEARTS GamePhase.ONE demoLead demoMoves ≠ [] ∧
    bot7_candidates SCORES Suit.HEARTS GamePhase.ONE demoLead demoMoves ≠ [] ∧
    bot8_mtc SCORES Suit.HEARTS GamePhase.ONE demoLead demoMoves ≠ [] ∧
    bot8_candidates SCORES Suit.HEARTS GamePhase.ONE demoLead demoMoves ≠ [] :=
  claim_C4_cascade_never_empty SCORES Suit.HEARTS GamePhase.ONE demoLead demoMoves demo_legal

/-! ## Claim C6 — the chosen move is always one of the legal moves -/

/-- Claim C6: for every bot variant, every decision snapshot and every state
of the random source (modelled by an arbitrary draw index), the candidate
list is a subset of the legal-move set and whatever move the terminal
random choice returns belongs to the original legal-move set. -/
theorem claim_C6_chosen_move_legal (pts : Rank → Int) (trump : Suit)
    (phase : GamePhase) (leaderMove : Option Move) (moves : List Move) :
    (∀ x ∈ bot1_candidates pts moves, x ∈ moves) ∧
    (∀ x ∈ bot2_candidates pts trump moves, x ∈ moves) ∧
    (∀ x ∈ bot3_candidates pts trump moves, x ∈ moves) ∧
    (∀ x ∈ bot4_candidates pts trump leaderMove moves, x ∈ moves) ∧
    (∀ x ∈ bot6_candidates pts trump leaderMove moves, x ∈ moves) ∧
    (∀ x ∈ bot7old_candidates pts trump phase leaderMove moves, x ∈ moves) ∧
    (∀ x ∈ bot7_candidates pts trump phase leaderMove moves, x ∈ moves) ∧
    (∀ x ∈ bot8_candidates pts trump phase leaderMove moves, x ∈ moves) ∧
    (∀ i m, bot1_move pts moves i = some m → m ∈ moves) ∧
    (∀ i m, bot2_move pts trump moves i = some m → m ∈ moves) ∧
    (∀ i m, bot3_move pts trump moves i = some m → m ∈ moves) ∧
    (∀ i m, bot4_move pts trump leaderMove moves i = some m → m ∈ moves) ∧
    (∀ i m, bot6_move pts trump leaderMove moves i = some m → m ∈ moves) ∧
    (∀ i m, bot7old_move pts trump phase leaderMove moves i = some m → m ∈ moves) ∧
    (∀ i m, bot7_move pts trump phase leaderMove moves i = some m → m ∈ moves) ∧
    (∀ i m, bot8_move pts trump phase leaderMove moves i = some m → m ∈ moves) := by
  refine ⟨bot1_candidates_subset pts moves,
    bot2_candidates_subset pts trump moves,
    bot3_candidates_subset pts trump moves,
    bot4_candidates_subset pts trump leaderMove moves,
    bot6_candidates_subset pts trump leaderMove moves,
    bot7old_candidates_subset pts trump phase leaderMove moves,
    bot7_candidates_subset pts trump phase leaderMove moves,
    bot8_candidates_subset pts trump phase leaderMove moves, ?_, ?_, ?_, ?_, ?_, ?_, ?_, ?_⟩
  all_goals intro i m hm
  · exact bot1_candidates_subset pts moves m (choiceAt_mem hm)
  · exact bot2_candidates_subset pts trump moves m (choiceAt_mem hm)
  · exact bot3_candidates_subset pts trump moves m (choiceAt_mem hm)
  · exact bot4_candidates_subset pts trump leaderMove moves m (choiceAt_mem hm)
  · exact bot6_candidates_subset pts trump leaderMove moves m (choiceAt_mem hm)
  · exact bot7old_candidates_subset pts trump phase leaderMove moves m (choiceAt_mem hm)
  · exact bot7_candidates_subset pts trump phase leaderMove moves m (choiceAt_mem hm)
  · exact bot8_candidates_subset pts trump phase leaderMove moves m (choiceAt_mem hm)

/-- Witness for C6: at the concrete follower snapshot, Bot6 must duck with
the JACK of HEARTS (the cheapest winning reply is the trump JACK), and the
theorem places the chosen move inside the legal set. -/
theorem claim_C6_witness :
    Move.regular ⟨Suit.HEARTS, Rank.JACK⟩ ∈ demoMoves :=
  (claim_C6_chosen_move_legal SCORES Suit.HEARTS GamePhase.ONE demoLead
      demoMoves).2.2.2.2.2.2.2.2.2.2.2.2.1
    0 (Move.regular ⟨Suit.HEARTS, Rank.JACK⟩) (by decide)

/-! ## Claim C1 — the exact two-sided binomial test

`binom_pmf` and `binom_test_two_sided` transcribe the two functions of
`full_experiment.py`; Python float arithmetic is modelled as exact rational
arithmetic (every quantity the claims compare — powers of 1/2, binomial
coefficients, and their sums for n = 10 — is a dyadic rational that IEEE
doubles represent and add exactly), and the float literal `1e-12` is the
rational `1/10^12`. -/

/-- Python's two-argument `min`: the first argument when it is ≤ the
second. -/
def ratMin (a b : ℚ) : ℚ := if a ≤ b then a else b

/-- `binom_pmf(k, n, p)`: `math.comb(n, k) * p**k * (1-p)**(n-k)`. -/
def binom_pmf (k n : Nat) (p : ℚ) : ℚ :=
  (n.choose k : ℚ) * p ^ k * (1 - p) ^ (n - k)

/-- `binom_test_two_sided(k, n, p)`: sum the pmf over all `i` in `[0, n]`
whose pmf is at most the observed pmf plus `1e-12`, capped at 1. -/
def binom_test_two_sided (k n : Nat) (p : ℚ) : ℚ :=
  ratMin ((List.range (n + 1)).foldl
    (fun total i =>
      if binom_pmf i n p ≤ binom_pmf k n p + 1 / 10 ^ 12 then total + binom_pmf i n p
      else total)
    0) 1

theorem binom_pmf_nonneg (k n : Nat) : 0 ≤ binom_pmf k n (1/2) := by
  unfold binom_pmf
  positivity

theorem foldl_cond_add_nonneg (f : Nat → ℚ) (P : Nat → Prop) [DecidablePred P]
    (hf : ∀ i, 0 ≤ f i) :
    ∀ (L : List Nat) (acc : ℚ), 0 ≤ acc →
      0 ≤ L.foldl (fun a i => if P i then a + f i else a) acc := by
  intro L
  induction L with
  | nil => intro acc h; exact h
  | cons i L ih =>
    intro acc h
    rw [List.foldl_cons]
    by_cases hP : P i
    · rw [if_pos hP]
      exact ih _ (add_nonneg h (hf i))
    · rw [if_neg hP]
      exact ih _ h

theorem foldl_cond_eq_sum (f : Nat → ℚ) (P : Nat → Prop) [DecidablePred P] :
    ∀ (L : List Nat) (acc : ℚ),
      L.foldl (fun a i => if P i then a + f i else a) acc
        = acc + ((L.filter fun i => decide (P i)).map f).sum := by
  intro L
  induction L with
  | nil => intro acc; simp
  | cons i L ih =>
    intro acc
    rw [List.foldl_cons]
    by_cases hP : P i
    · rw [if_pos hP, ih]
      simp [List.filter_cons, hP]
      ring
    · rw [if_neg hP, ih]
      simp [List.filter_cons, hP]

theorem binom_pmf_0_10 : binom_pmf 0 10 (1/2) = 1 / 1024 := by
  unfold binom_pmf; rw [show Nat.choose 10 0 = 1 from rfl]; norm_num

theorem binom_pmf_1_10 : binom_pmf 1 10 (1/2) = 10 / 1024 := by
  unfold binom_pmf; rw [show Nat.choose 10 1 = 10 from rfl]; norm_num

theorem binom_pmf_2_10 : binom_pmf 2 10 (1/2) = 45 / 1024 := by
  unfold binom_pmf; rw [show Nat.choose 10 2 = 45 from rfl]; norm_num

theorem binom_pmf_3_10 : binom_pmf 3 10 (1/2) = 120 / 1024 := by
  unfold binom_pmf; rw [show Nat.choose 10 3 = 120 from rfl]; norm_num

theorem binom_pmf_4_10 : binom_pmf 4 10 (1/2) = 210 / 1024 := by
  unfold binom_pmf; rw [show Nat.choose 10 4 = 210 from rfl]; norm_num

theorem binom_pmf_5_10 : binom_pmf 5 10 (1/2) = 252 / 1024 := by
  unfold binom_pmf; rw [show Nat.choose 10 5 = 252 from rfl]; norm_num

theorem binom_pmf_6_10 : binom_pmf 6 10 (1/2) = 210 / 1024 := by
  unfold binom_pmf; rw [show Nat.choose 10 6 = 210 from rfl]; norm_num

theorem binom_pmf_7_10 : binom_pmf 7 10 (1/2) = 120 / 1024 := by
  unfold binom_pmf; rw [show Nat.choose 10 7 = 120 from rfl]; norm_num

theorem binom_pmf_8_10 : binom_pmf 8 10 (1/2) = 45 / 1024 := by
  unfold binom_pmf; rw [show Nat.choose 10 8 = 45 from rfl]; norm_num

theorem binom_pmf_9_10 : binom_pmf 9 10 (1/2) = 10 / 1024 := by
  unfold binom_pmf; rw [show Nat.choose 10 9 = 10 from rfl]; norm_num

theorem binom_pmf_10_10 : binom_pmf 10 10 (1/2) = 1 / 1024 := by
  unfold binom_pmf; rw [show Nat.choose 10 10 = 1 from rfl]; norm_num

/-- Claim C1: the two-sided exact binomial test sums the pmf of every
outcome whose probability is at most the observed probability plus the
tolerance `1e-12` and caps the result at 1; for every `k` and `n` the
result lies in `[0, 1]`; `binom_test_two_sided 5 10` is exactly 1; and
`binom_test_two_sided 0 10` is exactly `2 * 0.5^10`. -/
theorem claim_C1_binom_test (k n : Nat) :
    (binom_test_two_sided k n (1/2) =
      ratMin (((List.range (n + 1)).filter fun i =>
          decide (binom_pmf i n (1/2) ≤ binom_pmf k n (1/2) + 1 / 10 ^ 12)).map
        (fun i => binom_pmf i n (1/2))).sum 1) ∧
    0 ≤ binom_test_two_sided k n (1/2) ∧
    binom_test_two_sided k n (1/2) ≤ 1 ∧
    binom_test_two_sided 5 10 (1/2) = 1 ∧
    binom_test_two_sided 0 10 (1/2) = 2 * (1/2 : ℚ) ^ 10 := by
  refine ⟨?_, ?_, ?_, ?_, ?_⟩
  · unfold binom_test_two_sided
    rw [foldl_cond_eq_sum (fun i => binom_pmf i n (1/2))
      (fun i => binom_pmf i n (1/2) ≤ binom_pmf k n (1/2) + 1 / 10 ^ 12)]
    rw [zero_add]
  · unfold binom_test_two_sided ratMin
    have h0 : (0:ℚ) ≤ (List.range (n + 1)).foldl
        (fun total i =>
          if binom_pmf i n (1/2) ≤ binom_pmf k n (1/2) + 1 / 10 ^ 12 then
            total + binom_pmf i n (1/2)
          else total) 0 :=
      foldl_cond_add_nonneg (fun i => binom_pmf i n (1/2)) _
        (fun i => binom_pmf_nonneg i n) _ 0 le_rfl
    split
    · exact h0
    · norm_num
  · unfold binom_test_two_sided ratMin
    split
    · assumption
    · exact le_refl 1
  · unfold binom_test_two_sided
    simp only [show (10:Nat) + 1 = 11 from rfl, List.range_succ, List.range_zero,
      List.nil_append, List.foldl_append, List.foldl_cons, List.foldl_nil,
      binom_pmf_0_10, binom_pmf_1_10, binom_pmf_2_10, binom_pmf_3_10, binom_pmf_4_10,
      binom_pmf_5_10, binom_pmf_6_10, binom_pmf_7_10, binom_pmf_8_10, binom_pmf_9_10,
      binom_pmf_10_10]
    norm_num [ratMin]
  · unfold binom_test_two_sided
    simp only [show (10:Nat) + 1 = 11 from rfl, List.range_succ, List.range_zero,
      List.nil_append, List.foldl_append, List.foldl_cons, List.foldl_nil,
      binom_pmf_0_10, binom_pmf_1_10, binom_pmf_2_10, binom_pmf_3_10, binom_pmf_4_10,
      binom_pmf_5_10, binom_pmf_6_10, binom_pmf_7_10, binom_pmf_8_10, binom_pmf_9_10,
      binom_pmf_10_10]
    norm_num [ratMin]

/-! ## Claim C10 — Bot7 and Bot8 agree in Phase ONE -/

/-- Bot7's name-based Ace/Ten test and Bot8's enum-comparison test select
the same moves. -/
theorem aggressiveLeads_eq (trump : Suit) (moves : List Move) :
    aggressiveLeads7 trump moves = aggressiveLeads8 trump moves := by
  unfold aggressiveLeads7 aggressiveLeads8
  apply List.filter_congr
  intro m _
  cases m with
  | regular c =>
    obtain ⟨cs, cr⟩ := c
    cases cr <;> simp [Move.playedCard, Rank.name]
  | marriage c =>
    obtain ⟨cs, cr⟩ := c
    cases cr <;> simp [Move.playedCard, Rank.name]
  | trumpExchange => rfl

/-- In Phase ONE, Bot8's phase-gated score coincides with the full score
used by Bot7. -/
theorem scorePhase_one_eq (pts : Rank → Int) (trump : Suit) :
    scorePhase pts trump GamePhase.ONE = scoreFull pts trump := by
  funext m
  cases m <;> simp [scorePhase, scoreFull]

/-- The two bots' follower blocks are the same function. -/
theorem bot7_bot8_followerRule_eq (pts : Rank → Int) (trump : Suit) :
    bot7_followerRule pts trump = bot8_followerRule pts trump := rfl

/-- Claim C10: on every Phase-ONE decision snapshot and every state of the
random source, Bot7 and Bot8 narrow to the same `moves_to_consider`, score
to the same candidate list, and return the same move. -/
theorem claim_C10_bot7_bot8_phase_one (pts : Rank → Int) (trump : Suit)
    (leaderMove : Option Move) (moves : List Move) (i : Nat) :
    bot7_mtc pts trump GamePhase.ONE leaderMove moves
      = bot8_mtc pts trump GamePhase.ONE leaderMove moves ∧
    bot7_candidates pts trump GamePhase.ONE leaderMove moves
      = bot8_candidates pts trump GamePhase.ONE leaderMove moves ∧
    bot7_move pts trump GamePhase.ONE leaderMove moves i
      = bot8_move pts trump GamePhase.ONE leaderMove moves i := by
  have hmtc : bot7_mtc pts trump GamePhase.ONE leaderMove moves
      = bot8_mtc pts trump GamePhase.ONE leaderMove moves := by
    cases leaderMove with
    | none => simp [bot7_mtc, bot8_mtc, aggressiveLeads_eq]
    | some lm => simp [bot7_mtc, bot8_mtc, bot7_bot8_followerRule_eq]
  have hcand : bot7_candidates pts trump GamePhase.ONE leaderMove moves
      = bot8_candidates pts trump GamePhase.ONE leaderMove moves := by
    unfold bot7_candidates bot8_candidates
    rw [hmtc, scorePhase_one_eq]
  exact ⟨hmtc, hcand, by unfold bot7_move bot8_move; rw [hcand]⟩

/-! ## Claim C2 — seed derivation (`stable_int_seed`) over SHA-256

`hashlib.sha256` implements FIPS 180-4; the algorithm is embedded here in
full, with 32-bit machine words as `Nat` reduced modulo `2^32` and message
bytes as `Nat` below 256.  `stable_int_seed` then pipe-joins its string
arguments, UTF-8-encodes them, hashes, and reads the first 8 digest bytes
as a big-endian unsigned integer — exactly the Python function. -/

/-- Reduce to a 32-bit word. -/
def w32 (x : Nat) : Nat := x % 4294967296

/-- 32-bit right rotation. -/
def rotr32 (n x : Nat) : Nat := w32 ((x >>> n) ||| (x <<< (32 - n)))

/-- 32-bit addition. -/
def addw (a b : Nat) : Nat := w32 (a + b)

def bsig0 (x : Nat) : Nat := (rotr32 2 x ^^^ rotr32 13 x) ^^^ rotr32 22 x

def bsig1 (x : Nat) : Nat := (rotr32 6 x ^^^ rotr32 11 x) ^^^ rotr32 25 x

def ssig0 (x : Nat) : Nat := (rotr32 7 x ^^^ rotr32 18 x) ^^^ (x >>> 3)

def ssig1 (x : Nat) : Nat := (rotr32 17 x ^^^ rotr32 19 x) ^^^ (x >>> 10)

def chf (e f g : Nat) : Nat := (e &&& f) ^^^ ((e ^^^ 0xFFFFFFFF) &&& g)

def majf (a b c : Nat) : Nat := ((a &&& b) ^^^ (a &&& c)) ^^^ (b &&& c)

/-- The 64 SHA-256 round constants. -/
def K256 : List Nat :=
  [1116352408, 1899447441, 3049323471, 3921009573, 961987163,
   1508970993, 2453635748, 2870763221, 3624381080, 310598401,
   607225278, 1426881987, 1925078388, 2162078206, 2614888103,
   3248222580, 3835390401, 4022224774, 264347078, 604807628,
   770255983, 1249150122, 1555081692, 1996064986, 2554220882,
   2821834349, 2952996808, 3210313671, 3336571891, 3584528711,
   113926993, 338241895, 666307205, 773529912, 1294757372,
   1396182291, 1695183700, 1986661051, 2177026350, 2456956037,
   2730485921, 2820302411, 3259730800, 3345764771, 3516065817,
   3600352804, 4094571909, 275423344, 430227734, 506948616,
   659060556, 883997877, 958139571, 1322822218, 1537002063,
   1747873779, 1955562222, 2024104815, 2227730452, 2361852424,
   2428436474, 2756734187, 3204031479, 3329325298]

/-- The initial SHA-256 hash state. -/
def H256 : List Nat :=
  [1779033703, 3144134277, 1013904242, 2773480762,
   1359893119, 2600822924, 528734635, 1541459225]

/-- Big-endian byte decomposition of `x` into `k` bytes. -/
def toBytesBE : Nat → Nat → List Nat
  | 0, _ => []
  | k + 1, x => toBytesBE k (x >>> 8) ++ [x &&& 0xFF]

/-- FIPS padding: append `0x80`, zero bytes up to 56 mod 64, then the
bit length as an 8-byte big-endian integer. -/
def padMessage (msg : List Nat) : List Nat :=
  msg ++ [0x80] ++ List.replicate ((119 - msg.length % 64) % 64) 0
    ++ toBytesBE 8 (8 * msg.length)

/-- Big-endian 4-byte groups to 32-bit words. -/
def bytesToWords : List Nat → List Nat
  | b0 :: b1 :: b2 :: b3 :: rest =>
    (((b0 <<< 24) ||| (b1 <<< 16)) ||| ((b2 <<< 8) ||| b3)) :: bytesToWords rest
  | _ => []

/-- One extension step of the message schedule: the next word from the
last 16. -/
def scheduleStep (w : List Nat) : Nat :=
  addw (addw (ssig1 (w.getD (w.length - 2) 0)) (w.getD (w.length - 7) 0))
    (addw (ssig0 (w.getD (w.length - 15) 0)) (w.getD (w.length - 16) 0))

def extendSchedule : Nat → List Nat → List Nat
  | 0, w => w
  | k + 1, w => extendSchedule k (w ++ [scheduleStep w])

/-- The 64-word message schedule of a 16-word block. -/
def msgSchedule (block : List Nat) : List Nat := extendSchedule 48 block

/-- One compression round on the state `[a,b,c,d,e,f,g,h]`. -/
def compressStep (state : List Nat) (k w : Nat) : List Nat :=
  let a := state.getD 0 0
  let b := state.getD 1 0
  let c := state.getD 2 0
  let d := state.getD 3 0
  let e := state.getD 4 0
  let f := state.getD 5 0
  let g := state.getD 6 0
  let h := state.getD 7 0
  let t1 := addw h (addw (bsig1 e) (addw (chf e f g) (addw k w)))
  let t2 := addw (bsig0 a) (majf a b c)
  [addw t1 t2, a, b, c, addw d t1, e, f, g]

/-- Compress one 64-byte block into the running hash. -/
def compressBlock (H : List Nat) (block : List Nat) : List Nat :=
  let ws := msgSchedule (bytesToWords block)
  let s := (K256.zip ws).foldl (fun st kw => compressStep st kw.1 kw.2) H
  List.zipWith addw H s

/-- Split into 64-byte chunks (fuel-driven; the padded length is the fuel). -/
def chunksOf64 : Nat → List Nat → List (List Nat)
  | 0, _ => []
  | _ + 1, [] => []
  | fuel + 1, l => l.take 64 :: chunksOf64 fuel (l.drop 64)

/-- The SHA-256 digest (32 bytes) of a byte string. -/
def sha256 (msg : List Nat) : List Nat :=
  let padded := padMessage msg
  (((chunksOf64 padded.length padded).foldl compressBlock H256).map (toBytesBE 4)).flatten

/-- UTF-8 encoding of one character. -/
def utf8EncodeChar (c : Char) : List Nat :=
  let n := c.toNat
  if n < 0x80 then [n]
  else if n < 0x800 then
    [0xC0 ||| (n >>> 6), 0x80 ||| (n &&& 0x3F)]
  else if n < 0x10000 then
    [0xE0 ||| (n >>> 12), 0x80 ||| ((n >>> 6) &&& 0x3F), 0x80 ||| (n &&& 0x3F)]
  else
    [0xF0 ||| (n >>> 18), 0x80 ||| ((n >>> 12) &&& 0x3F),
     0x80 ||| ((n >>> 6) &&& 0x3F), 0x80 ||| (n &&& 0x3F)]

/-- `s.encode("utf-8")`. -/
def utf8Encode (s : String) : List Nat := (s.data.map utf8EncodeChar).flatten

/-- `int.from_bytes(bytes, "big")`. -/
def fromBytesBE (bytes : List Nat) : Nat := bytes.foldl (fun acc b => acc * 256 + b) 0

/-- `stable_int_seed(*parts)`: SHA-256 of the pipe-joined UTF-8 text, high
8 bytes big-endian. -/
def stable_int_seed (parts : List String) : Nat :=
  fromBytesBE ((sha256 (utf8Encode (String.intercalate "|" parts))).take 8)

/-- The fixed base seed of `full_experiment.py`. -/
def BASE_SEED : Nat := 20240229

/-- The seed `create_bot` derives for a bot label and game index. -/
def create_bot_seed (label : String) (gameIndex : Nat) : Nat :=
  stable_int_seed [toString BASE_SEED, label, toString gameIndex]

/-- The seeds produced by processing a schedule of `(label, game_index)`
bot constructions in order. -/
def scheduleSeeds (calls : List (String × Nat)) : List Nat :=
  calls.map (fun c => create_bot_seed c.1 c.2)

/-- FIPS 180-4 test vector: the digest of `"abc"`, validating the SHA-256
embedding. -/
theorem sha256_abc :
    sha256 (utf8Encode "abc") =
      [186, 120, 22, 191, 143, 1, 207, 234,
       65, 65, 64, 222, 93, 174, 34, 35,
       176, 3, 97, 163, 150, 23, 122, 156,
       180, 16, 255, 97, 242, 0, 21, 173] := by
  set_option maxRecDepth 100000 in decide

/-- Cross-check of the whole pipeline against
`hashlib.sha256(b"20240229|Bot1|0")`: the seed of bot "Bot1" at game
index 0. -/
theorem stable_int_seed_bot1_game0 :
    stable_int_seed ["20240229", "Bot1", "0"] = 10678998146175130524 := by
  set_option maxRecDepth 100000 in decide

theorem toBytesBE_lt_256 : ∀ (k x : Nat), ∀ b ∈ toBytesBE k x, b < 256 := by
  intro k
  induction k with
  | zero => intro x b hb; simp [toBytesBE] at hb
  | succ k ih =>
    intro x b hb
    simp only [toBytesBE] at hb
    rcases List.mem_append.mp hb with h | h
    · exact ih _ b h
    · simp only [List.mem_singleton] at h
      subst h
      exact Nat.lt_succ_of_le (Nat.and_le_right)

theorem sha256_bytes_lt_256 (msg : List Nat) : ∀ b ∈ sha256 msg, b < 256 := by
  intro b hb
  unfold sha256 at hb
  rcases List.mem_flatten.mp hb with ⟨l, hl, hbl⟩
  rcases List.mem_map.mp hl with ⟨w, _, hw⟩
  exact toBytesBE_lt_256 4 w b (hw ▸ hbl)

theorem fromBytesBE_aux_lt : ∀ (L : List Nat) (acc : Nat), (∀ b ∈ L, b < 256) →
    L.foldl (fun a b => a * 256 + b) acc < (acc + 1) * 256 ^ L.length := by
  intro L
  induction L with
  | nil => intro acc _; simpa using Nat.lt_succ_self acc
  | cons b L ih =>
    intro acc h
    have hb : b < 256 := h b (by simp)
    have step : L.foldl (fun a b => a * 256 + b) (acc * 256 + b)
        < (acc * 256 + b + 1) * 256 ^ L.length :=
      ih _ (fun x hx => h x (by simp [hx]))
    calc (b :: L).foldl (fun a b => a * 256 + b) acc
        = L.foldl (fun a b => a * 256 + b) (acc * 256 + b) := by rw [List.foldl_cons]
      _ < (acc * 256 + b + 1) * 256 ^ L.length := step
      _ ≤ ((acc + 1) * 256) * 256 ^ L.length := by
          have : acc * 256 + b + 1 ≤ (acc + 1) * 256 := by omega
          exact Nat.mul_le_mul_right _ this
      _ = (acc + 1) * 256 ^ (b :: L).length := by
          rw [List.length_cons, Nat.pow_succ]
          ring

theorem stable_int_seed_lt (parts : List String) : stable_int_seed parts < 2 ^ 64 := by
  unfold stable_int_seed
  have hbytes : ∀ b ∈ (sha256 (utf8Encode (String.intercalate "|" parts))).take 8, b < 256 :=
    fun b hb => sha256_bytes_lt_256 _ b (List.take_subset 8 _ hb)
  have hlen : ((sha256 (utf8Encode (String.intercalate "|" parts))).take 8).length ≤ 8 :=
    List.length_take_le 8 _
  calc fromBytesBE ((sha256 (utf8Encode (String.intercalate "|" parts))).take 8)
      < (0 + 1) * 256 ^ ((sha256 (utf8Encode (String.intercalate "|" parts))).take 8).length :=
        fromBytesBE_aux_lt _ 0 hbytes
    _ ≤ (0 + 1) * 256 ^ 8 := by
        exact Nat.mul_le_mul_left _ (Nat.pow_le_pow_right (by norm_num) hlen)
    _ = 2 ^ 64 := by norm_num

/-- Claim C2: `stable_int_seed` is the pure function taking the SHA-256
digest of the pipe-joined UTF-8 arguments and reading its high 8 bytes as
a big-endian unsigned integer; the result always fits in a `uint64`; the
seed at any position of any scheduling order is a function of that call's
`(label, index)` arguments alone, so it does not depend on which other
labels were processed earlier or any other state. -/
theorem claim_C2_stable_seed :
    (∀ parts : List String,
      stable_int_seed parts
        = fromBytesBE ((sha256 (utf8Encode (String.intercalate "|" parts))).take 8)) ∧
    (∀ parts : List String, stable_int_seed parts < 2 ^ 64) ∧
    (∀ (calls : List (String × Nat)) (i : Nat),
      (scheduleSeeds calls).get? i = (calls.get? i).map (fun c => create_bot_seed c.1 c.2)) ∧
    (∀ (calls1 calls2 : List (String × Nat)) (i j : Nat),
      calls1.get? i = calls2.get? j →
        (scheduleSeeds calls1).get? i = (scheduleSeeds calls2).get? j) := by
  refine ⟨fun _ => rfl, stable_int_seed_lt, ?_, ?_⟩
  · intro calls i
    simp [scheduleSeeds, List.get?_map]
  · intro calls1 calls2 i j h
    simp only [scheduleSeeds, List.get?_map, h]

/-- Witness for C2: the seed of `("Bot1", 0)` is the same whether it is the
only scheduled construction or is preceded by another bot's construction. -/
theorem claim_C2_witness :
    (scheduleSeeds [("Bot1", 0)]).get? 0
      = (scheduleSeeds [("RandBot", 7), ("Bot1", 0)]).get? 1 :=
  claim_C2_stable_seed.2.2.2 [("Bot1", 0)] [("RandBot", 7), ("Bot1", 0)] 0 1 rfl

/-! ## The tournament double loop of `main`

The loop is embedded as a fold threading the mutable structures of
`main`: `pairing_stats` (one record per pairing, in creation order),
`bot_stats` (a per-label record) and `raw_rows`.  Everything delivered by
the external game engine for one game — the winner identity test
(`winner_bot is bot_a` / `is bot_b` / neither) and the two extracted point
totals — is abstracted as a function `res` of the pairing labels and game
index; the deck-seed sequence is an arbitrary list generated once; the
games-per-pairing constant is a parameter `n` (1000 in the source). -/

/-- Result of `winner_bot is bot_a` / `winner_bot is bot_b` / neither (the
`"Unknown"` branch of `main`). -/
inductive GWinner
  | wa
  | wb
  | other
  deriving DecidableEq, Repr

/-- What one game of a pairing delivers to the aggregation code. -/
structure GameOutcome where
  winner : GWinner
  points_a : Int
  points_b : Int

/-- One record of `raw_rows` (the pairing is kept as its two labels; the
`pairing_id` string is their `"_vs_"` join). -/
structure RawRow where
  bot_a : String
  bot_b : String
  game_index : Nat
  deck_seed : Nat
  leader : String
  follower : String
  winner : GWinner
  points_a : Int
  points_b : Int
  point_diff : Int
  deriving DecidableEq, Repr

/-- One entry of `pairing_stats` (the point-differential list, which no
claim mentions, is not tracked). -/
structure PairingStats where
  bot_a : String
  bot_b : String
  wins_a : Nat
  wins_b : Nat
  deriving DecidableEq, Repr

/-- One entry of `bot_stats`. -/
structure BotStats where
  games : Nat
  wins : Nat
  deriving DecidableEq, Repr

/-- `GAMES_PER_PAIRING` of `full_experiment.py`. -/
def GAMES_PER_PAIRING : Nat := 1000

/-- The declared bot labels, in `BOT_SPECS` order. -/
def BOT_LABELS : List String :=
  ["Bot1", "Bot2", "Bot3", "Bot4", "Bot5", "Bot6", "Bot7old", "Bot7", "Bot8",
   "RandBot", "BullyBot"]

/-- The deck-seed sequence: a fixed-length list generated once, before any
pairing runs, by drawing `n` values from the stream `gen` seeded with the
base seed (`random.Random(BASE_SEED).randint(...)`, whose Mersenne-Twister
stream is external and abstracted as `gen`). -/
def deckSeedsOf (gen : Nat → Nat) (n : Nat) : List Nat :=
  (List.range n).map gen

/-- The raw-results row of game `g` of pairing `(a, b)`: deck seed number
`g` of the shared sequence, leader by game-index parity, and the outcome
fields. -/
def playOneRow (res : String → String → Nat → GameOutcome) (deckSeeds : List Nat)
    (a b : String) (g : Nat) : RawRow :=
  { bot_a := a, bot_b := b, game_index := g, deck_seed := deckSeeds.getD g 0,
    leader := if g % 2 = 0 then a else b,
    follower := if g % 2 = 0 then b else a,
    winner := (res a b g).winner,
    points_a := (res a b g).points_a, points_b := (res a b g).points_b,
    point_diff := (res a b g).points_a - (res a b g).points_b }

/-- Pointwise update of the `bot_stats` dictionary. -/
def updateBot (bs : String → BotStats) (l : String) (f : BotStats → BotStats) :
    String → BotStats :=
  fun x => if x = l then f (bs x) else bs x

/-- One iteration of the inner game loop: updates the current pairing's
record, both participants' bot records, and appends the raw row. -/
def gameStep (res : String → String → Nat → GameOutcome) (deckSeeds : List Nat)
    (a b : String) (st : PairingStats × (String → BotStats) × List RawRow) (g : Nat) :
    PairingStats × (String → BotStats) × List RawRow :=
  let row := playOneRow res deckSeeds a b g
  let ps := { st.1 with
    wins_a := st.1.wins_a + (if row.winner = GWinner.wa then 1 else 0),
    wins_b := st.1.wins_b + (if row.winner = GWinner.wb then 1 else 0) }
  let bs1 := updateBot st.2.1 a (fun r =>
    { games := r.games + 1, wins := r.wins + (if row.winner = GWinner.wa then 1 else 0) })
  let bs2 := updateBot bs1 b (fun r =>
    { games := r.games + 1, wins := r.wins + (if row.winner = GWinner.wb then 1 else 0) })
  (ps, bs2, st.2.2 ++ [row])

/-- The accumulated tournament state. -/
structure TState where
  botStats : String → BotStats
  pairings : List PairingStats
  rawRows : List RawRow

/-- One pairing: create its fresh record, play games `0..n-1`, and append
the finished record. -/
def runPairing (n : Nat) (res : String → String → Nat → GameOutcome)
    (deckSeeds : List Nat) (a b : String) (st : TState) : TState :=
  let r := (List.range n).foldl (gameStep res deckSeeds a b)
    ({ bot_a := a, bot_b := b, wins_a := 0, wins_b := 0 }, st.botStats, st.rawRows)
  { botStats := r.2.1, pairings := st.pairings ++ [r.1], rawRows := r.2.2 }

/-- The unordered pairs in the loop's order: outer loop over the spec list,
inner loop over the later specs. -/
def allPairs : List String → List (String × String)
  | [] => []
  | x :: xs => xs.map (fun y => (x, y)) ++ allPairs xs

/-- The full double loop over all pairings. -/
def runTournament (n : Nat) (res : String → String → Nat → GameOutcome)
    (deckSeeds : List Nat) (specs : List String) : TState :=
  (allPairs specs).foldl (fun st ab => runPairing n res deckSeeds ab.1 ab.2 st)
    { botStats := fun _ => { games := 0, wins := 0 }, pairings := [], rawRows := [] }

/-! ### Closed forms for the two nested folds -/

/-- `1` when the label `l` is the label `x`. -/
def indC (l x : String) : Nat := if l = x then 1 else 0

/-- Wins of the first-named bot over the game indices `L`. -/
def pairWinsA (res : String → String → Nat → GameOutcome) (a b : String)
    (L : List Nat) : Nat :=
  (L.map (fun g => if (res a b g).winner = GWinner.wa then 1 else 0)).sum

/-- Wins of the second-named bot over the game indices `L`. -/
def pairWinsB (res : String → String → Nat → GameOutcome) (a b : String)
    (L : List Nat) : Nat :=
  (L.map (fun g => if (res a b g).winner = GWinner.wb then 1 else 0)).sum

/-- The finished record of one pairing. -/
def pairStatsFor (n : Nat) (res : String → String → Nat → GameOutcome)
    (a b : String) : PairingStats :=
  { bot_a := a, bot_b := b,
    wins_a := pairWinsA res a b (List.range n),
    wins_b := pairWinsB res a b (List.range n) }

/-- The raw rows of one pairing. -/
def pairingRows (n : Nat) (res : String → String → Nat → GameOutcome)
    (deckSeeds : List Nat) (a b : String) : List RawRow :=
  (List.range n).map (playOneRow res deckSeeds a b)

theorem gameStep_eq (res : String → String → Nat → GameOutcome) (seeds : List Nat)
    (a b : String) (ps : PairingStats) (bs : String → BotStats) (rows : List RawRow)
    (g : Nat) :
    gameStep res seeds a b (ps, bs, rows) g
      = ({ ps with
            wins_a := ps.wins_a + (if (res a b g).winner = GWinner.wa then 1 else 0),
            wins_b := ps.wins_b + (if (res a b g).winner = GWinner.wb then 1 else 0) },
         fun l =>
           { games := (bs l).games + (indC l a + indC l b),
             wins := (bs l).wins
               + indC l a * (if (res a b g).winner = GWinner.wa then 1 else 0)
               + indC l b * (if (res a b g).winner = GWinner.wb then 1 else 0) },
         rows ++ [playOneRow res seeds a b g]) := by
  unfold gameStep updateBot
  refine congrArg₂ Prod.mk ?_ (congrArg₂ Prod.mk ?_ rfl)
  · rfl
  · funext l
    by_cases hla : l = a
    · subst hla
      by_cases hab : l = b
      · subst hab
        simp [indC, playOneRow, BotStats.mk.injEq]
      · simp [indC, playOneRow, hab, BotStats.mk.injEq]
    · by_cases hlb : l = b
      · subst hlb
        simp [indC, playOneRow, hla, BotStats.mk.injEq]
      · simp [indC, playOneRow, hla, hlb]

theorem runGames_spec (res : String → String → Nat → GameOutcome) (seeds : List Nat)
    (a b : String) :
    ∀ (L : List Nat) (ps : PairingStats) (bs : String → BotStats) (rows : List RawRow),
      L.foldl (gameStep res seeds a b) (ps, bs, rows)
        = ({ ps with wins_a := ps.wins_a + pairWinsA res a b L,
                     wins_b := ps.wins_b + pairWinsB res a b L },
           fun l =>
             { games := (bs l).games + (indC l a + indC l b) * L.length,
               wins := (bs l).wins + indC l a * pairWinsA res a b L
                         + indC l b * pairWinsB res a b L },
           rows ++ L.map (playOneRow res seeds a b)) := by
  intro L
  induction L with
  | nil =>
    intro ps bs rows
    simp [pairWinsA, pairWinsB]
  | cons g L ih =>
    intro ps bs rows
    rw [List.foldl_cons, gameStep_eq, ih]
    refine congrArg₂ Prod.mk ?_ (congrArg₂ Prod.mk ?_ ?_)
    · cases ps
      simp only [pairWinsA, pairWinsB, List.map_cons, List.sum_cons,
        PairingStats.mk.injEq]
      exact ⟨trivial, trivial, by omega, by omega⟩
    · funext l
      simp only [pairWinsA, pairWinsB, List.map_cons, List.sum_cons, List.length_cons,
        BotStats.mk.injEq]
      constructor <;> ring
    · simp

theorem runPairing_eq (n : Nat) (res : String → String → Nat → GameOutcome)
    (seeds : List Nat) (a b : String) (st : TState) :
    runPairing n res seeds a b st
      = { botStats := fun l =>
            { games := (st.botStats l).games + (indC l a + indC l b) * n,
              wins := (st.botStats l).wins
                + indC l a * pairWinsA res a b (List.range n)
                + indC l b * pairWinsB res a b (List.range n) },
          pairings := st.pairings ++ [pairStatsFor n res a b],
          rawRows := st.rawRows ++ pairingRows n res seeds a b } := by
  unfold runPairing
  rw [runGames_spec]
  simp only [TState.mk.injEq]
  refine ⟨funext fun l => by simp [List.length_range], by simp [pairStatsFor],
    by simp [pairingRows]⟩

theorem runTournament_foldl_spec (n : Nat) (res : String → String → Nat → GameOutcome)
    (seeds : List Nat) :
    ∀ (P : List (String × String)) (st : TState),
      P.foldl (fun st ab => runPairing n res seeds ab.1 ab.2 st) st
        = { botStats := fun l =>
              { games := (st.botStats l).games
                  + (P.map (fun ab => (indC l ab.1 + indC l ab.2) * n)).sum,
                wins := (st.botStats l).wins
                  + (P.map (fun ab =>
                      indC l ab.1 * pairWinsA res ab.1 ab.2 (List.range n)
                        + indC l ab.2 * pairWinsB res ab.1 ab.2 (List.range n))).sum },
            pairings := st.pairings ++ P.map (fun ab => pairStatsFor n res ab.1 ab.2),
            rawRows := st.rawRows
              ++ (P.map (fun ab => pairingRows n res seeds ab.1 ab.2)).flatten } := by
  intro P
  induction P with
  | nil =>
    intro st
    simp only [List.foldl_nil, List.map_nil, List.sum_nil, List.flatten_nil,
      List.append_nil, Nat.add_zero]
  | cons ab P ih =>
    intro st
    rw [List.foldl_cons, runPairing_eq, ih]
    simp only [TState.mk.injEq, List.map_cons, List.sum_cons, List.flatten_cons]
    refine ⟨funext fun l => ?_, by simp, by simp⟩
    simp only [BotStats.mk.injEq]
    constructor <;> omega

theorem runTournament_eq (n : Nat) (res : String → String → Nat → GameOutcome)
    (seeds : List Nat) (specs : List String) :
    runTournament n res seeds specs
      = { botStats := fun l =>
            { games := ((allPairs specs).map
                (fun ab => (indC l ab.1 + indC l ab.2) * n)).sum,
              wins := ((allPairs specs).map (fun ab =>
                  indC l ab.1 * pairWinsA res ab.1 ab.2 (List.range n)
                    + indC l ab.2 * pairWinsB res ab.1 ab.2 (List.range n))).sum },
          pairings := (allPairs specs).map (fun ab => pairStatsFor n res ab.1 ab.2),
          rawRows := ((allPairs specs).map
            (fun ab => pairingRows n res seeds ab.1 ab.2)).flatten } := by
  unfold runTournament
  rw [runTournament_foldl_spec]
  simp

/-! ## Claim C7 — win accounting -/

theorem pairWins_total (res : String → String → Nat → GameOutcome) (a b : String)
    (h : ∀ g : Nat, (res a b g).winner ≠ GWinner.other) :
    ∀ L : List Nat, pairWinsA res a b L + pairWinsB res a b L = L.length := by
  intro L
  induction L with
  | nil => simp [pairWinsA, pairWinsB]
  | cons g L ih =>
    simp only [pairWinsA, pairWinsB, List.map_cons, List.sum_cons, List.length_cons] at *
    cases hw : (res a b g).winner with
    | wa => simp [hw]; omega
    | wb => simp [hw]; omega
    | other => exact absurd hw (h g)

/-- Claim C7: when every game's declared winner is one of the two
participating bots (which `play_game_capture_state` guarantees — it returns
the leader's or the follower's bot), every finished pairing record satisfies
`wins_a + wins_b = games_per_pairing`, and each label's total win count in
`bot_stats` equals the sum, over all pairing records, of the wins that
record stores for that label. -/
theorem claim_C7_win_accounting (n : Nat) (res : String → String → Nat → GameOutcome)
    (seeds : List Nat) (specs : List String)
    (hres : ∀ a b : String, ∀ g : Nat, (res a b g).winner ≠ GWinner.other) :
    (∀ ps ∈ (runTournament n res seeds specs).pairings, ps.wins_a + ps.wins_b = n) ∧
    (∀ l : String, ((runTournament n res seeds specs).botStats l).wins
        = ((runTournament n res seeds specs).pairings.map
            (fun ps => (if l = ps.bot_a then ps.wins_a else 0)
              + (if l = ps.bot_b then ps.wins_b else 0))).sum) := by
  rw [runTournament_eq]
  constructor
  · intro ps hps
    rcases List.mem_map.mp hps with ⟨ab, _, hab⟩
    subst hab
    show pairWinsA res ab.1 ab.2 (List.range n) + pairWinsB res ab.1 ab.2 (List.range n) = n
    rw [pairWins_total res ab.1 ab.2 (hres ab.1 ab.2) (List.range n), List.length_range]
  · intro l
    show ((allPairs specs).map _).sum = (((allPairs specs).map _).map _).sum
    rw [List.map_map]
    apply congrArg List.sum
    apply List.map_congr_left
    intro ab _
    show indC l ab.1 * pairWinsA res ab.1 ab.2 (List.range n)
        + indC l ab.2 * pairWinsB res ab.1 ab.2 (List.range n)
      = (if l = (pairStatsFor n res ab.1 ab.2).bot_a
          then (pairStatsFor n res ab.1 ab.2).wins_a else 0)
        + (if l = (pairStatsFor n res ab.1 ab.2).bot_b
          then (pairStatsFor n res ab.1 ab.2).wins_b else 0)
    unfold pairStatsFor indC
    by_cases h1 : l = ab.1 <;> by_cases h2 : l = ab.2 <;> simp [h1, h2]

/-- A fully deterministic stand-in outcome function for concrete instances:
the first-named bot wins even-indexed games, the second wins odd ones. -/
def demoRes : String → String → Nat → GameOutcome :=
  fun _ _ g =>
    { winner := if g % 2 = 0 then GWinner.wa else GWinner.wb,
      points_a := 7, points_b := 2 }

theorem demoRes_no_other : ∀ a b : String, ∀ g : Nat,
    (demoRes a b g).winner ≠ GWinner.other := by
  intro a b g
  unfold demoRes
  dsimp only
  split <;> simp

/-- Witness for C7 on a two-bot, two-game tournament. -/
theorem claim_C7_witness :
    ((runTournament 2 demoRes [11, 22] ["A", "B"]).botStats "A").wins
      = ((runTournament 2 demoRes [11, 22] ["A", "B"]).pairings.map
          (fun ps => (if "A" = ps.bot_a then ps.wins_a else 0)
            + (if "A" = ps.bot_b then ps.wins_b else 0))).sum ∧
    (pairStatsFor 2 demoRes "A" "B").wins_a + (pairStatsFor 2 demoRes "A" "B").wins_b = 2 :=
  ⟨(claim_C7_win_accounting 2 demoRes [11, 22] ["A", "B"] demoRes_no_other).2 "A",
   (claim_C7_win_accounting 2 demoRes [11, 22] ["A", "B"] demoRes_no_other).1
     (pairStatsFor 2 demoRes "A" "B") (by rw [runTournament_eq]; decide)⟩

/-! ## Claim C8 — one deck-seed sequence shared by all pairings -/

theorem deckSeedsOf_getD (gen : Nat → Nat) (n g : Nat) (h : g < n) :
    (deckSeedsOf gen n).getD g 0 = gen g := by
  unfold deckSeedsOf
  simp [List.getD_eq_getElem?_getD, List.getElem?_map, List.getElem?_range, h]

/-- Claim C8: the deck-seed list is generated once from the base-seed
stream before any pairing runs; the tournament's raw rows decompose into
one block per pairing; within every pairing, game `i` uses deck seed
number `i` of that single shared list (so every pairing sees the identical
seed sequence); and every recorded row's seed is the stream value at its
game index. -/
theorem claim_C8_deck_seed_sharing (n : Nat) (gen : Nat → Nat)
    (res : String → String → Nat → GameOutcome) (specs : List String) :
    ((runTournament n res (deckSeedsOf gen n) specs).rawRows
        = ((allPairs specs).map
            (fun ab => pairingRows n res (deckSeedsOf gen n) ab.1 ab.2)).flatten) ∧
    (∀ a b : String,
      (pairingRows n res (deckSeedsOf gen n) a b).map (fun r => r.deck_seed)
        = deckSeedsOf gen n) ∧
    (∀ row ∈ (runTournament n res (deckSeedsOf gen n) specs).rawRows,
        row.deck_seed = gen row.game_index ∧ row.game_index < n) := by
  have hpair : ∀ a b : String,
      (pairingRows n res (deckSeedsOf gen n) a b).map (fun r => r.deck_seed)
        = deckSeedsOf gen n := by
    intro a b
    unfold pairingRows
    rw [List.map_map]
    have h : ∀ g ∈ List.range n,
        ((fun r => r.deck_seed) ∘ playOneRow res (deckSeedsOf gen n) a b) g = gen g := by
      intro g hg
      show (playOneRow res (deckSeedsOf gen n) a b g).deck_seed = gen g
      unfold playOneRow
      exact deckSeedsOf_getD gen n g (List.mem_range.mp hg)
    rw [List.map_congr_left h]
    rfl
  refine ⟨by rw [runTournament_eq], hpair, ?_⟩
  intro row hrow
  rw [runTournament_eq] at hrow
  rcases List.mem_flatten.mp hrow with ⟨rows, hrows, hr⟩
  rcases List.mem_map.mp hrows with ⟨ab, _, hab⟩
  subst hab
  rcases List.mem_map.mp hr with ⟨g, hg, hrow2⟩
  subst hrow2
  have hgn : g < n := List.mem_range.mp hg
  exact ⟨deckSeedsOf_getD gen n g hgn, hgn⟩

/-- Witness for C8: a three-bot, two-game tournament with stream
`gen = (· * 10 + 3)`; the first row of the second pairing carries seed
`gen 0 = 3` at game index `0 < 2`. -/
theorem claim_C8_witness :
    (playOneRow demoRes (deckSeedsOf (fun g => g * 10 + 3) 2) "A" "C" 0).deck_seed
      = (fun g => g * 10 + 3) ((playOneRow demoRes
          (deckSeedsOf (fun g => g * 10 + 3) 2) "A" "C" 0).game_index)
    ∧ (playOneRow demoRes (deckSeedsOf (fun g => g * 10 + 3) 2) "A" "C" 0).game_index < 2 :=
  (claim_C8_deck_seed_sharing 2 (fun g => g * 10 + 3) demoRes ["A", "B", "C"]).2.2
    (playOneRow demoRes (deckSeedsOf (fun g => g * 10 + 3) 2) "A" "C" 0)
    (by rw [runTournament_eq]; decide)

/-! ## Claim C9 — leader/follower alternation by game-index parity -/

theorem countEvenRange :
    ∀ n : Nat, ((List.range n).filter (fun g => decide (g % 2 = 0))).length = (n + 1) / 2 := by
  intro n
  induction n with
  | zero => rfl
  | succ n ih =>
    rw [List.range_succ, List.filter_append, List.length_append, ih]
    by_cases h : n % 2 = 0
    · simp [h]
      omega
    · simp [h]
      omega

theorem countOddRange :
    ∀ n : Nat, ((List.range n).filter (fun g => decide (¬ g % 2 = 0))).length = n / 2 := by
  intro n
  induction n with
  | zero => rfl
  | succ n ih =>
    rw [List.range_succ, List.filter_append, List.length_append, ih]
    by_cases h : n % 2 = 0
    · simp [h]
      omega
    · have h1 : n % 2 = 1 := by omega
      simp [h1]
      omega

theorem pairingRows_leader_count (n : Nat) (res : String → String → Nat → GameOutcome)
    (seeds : List Nat) (a b : String) (hab : a ≠ b) :
    ((pairingRows n res seeds a b).filter (fun r => decide (r.leader = a))).length
        = (n + 1) / 2 ∧
    ((pairingRows n res seeds a b).filter (fun r => decide (r.leader = b))).length
        = n / 2 := by
  constructor
  · unfold pairingRows
    rw [List.map_filter, List.length_map]
    have h : ∀ g ∈ List.range n,
        ((fun r => decide (r.leader = a)) ∘ playOneRow res seeds a b) g
          = (fun g => decide (g % 2 = 0)) g := by
      intro g _
      show decide ((playOneRow res seeds a b g).leader = a) = decide (g % 2 = 0)
      unfold playOneRow
      by_cases h2 : g % 2 = 0 <;> simp [h2, hab, Ne.symm hab]
    rw [List.filter_congr h, countEvenRange]
  · unfold pairingRows
    rw [List.map_filter, List.length_map]
    have h : ∀ g ∈ List.range n,
        ((fun r => decide (r.leader = b)) ∘ playOneRow res seeds a b) g
          = (fun g => decide (¬ g % 2 = 0)) g := by
      intro g _
      show decide ((playOneRow res seeds a b g).leader = b) = decide (¬ g % 2 = 0)
      unfold playOneRow
      by_cases h2 : g % 2 = 0 <;> simp [h2, hab, Ne.symm hab]
    rw [List.filter_congr h, countOddRange]

/-- Claim C9: every recorded row's leader is the pairing's first-named bot
exactly when its game index is even (the follower the other bot); and for
every pairing with an even games-per-pairing count each bot leads exactly
half of the games — in particular exactly 500 of the source's 1000. -/
theorem claim_C9_leader_alternation (n : Nat) (res : String → String → Nat → GameOutcome)
    (seeds : List Nat) (specs : List String) :
    (∀ row ∈ (runTournament n res seeds specs).rawRows,
        row.leader = (if row.game_index % 2 = 0 then row.bot_a else row.bot_b) ∧
        row.follower = (if row.game_index % 2 = 0 then row.bot_b else row.bot_a)) ∧
    (∀ a b : String, a ≠ b → n % 2 = 0 →
        ((pairingRows n res seeds a b).filter (fun r => decide (r.leader = a))).length
            = n / 2 ∧
        ((pairingRows n res seeds a b).filter (fun r => decide (r.leader = b))).length
            = n / 2) ∧
    (∀ a b : String, a ≠ b →
        ((pairingRows GAMES_PER_PAIRING res seeds a b).filter
            (fun r => decide (r.leader = a))).length = 500 ∧
        ((pairingRows GAMES_PER_PAIRING res seeds a b).filter
            (fun r => decide (r.leader = b))).length = 500) := by
  refine ⟨?_, ?_, ?_⟩
  · intro row hrow
    rw [runTournament_eq] at hrow
    rcases List.mem_flatten.mp hrow with ⟨rows, hrows, hr⟩
    rcases List.mem_map.mp hrows with ⟨ab, _, hab⟩
    subst hab
    rcases List.mem_map.mp hr with ⟨g, _, hrow2⟩
    subst hrow2
    unfold playOneRow
    by_cases h2 : g % 2 = 0 <;> simp [h2]
  · intro a b hab hn
    have h := pairingRows_leader_count n res seeds a b hab
    refine ⟨?_, h.2⟩
    rw [h.1]
    omega
  · intro a b hab
    have h := pairingRows_leader_count GAMES_PER_PAIRING res seeds a b hab
    refine ⟨?_, ?_⟩
    · rw [h.1]; rfl
    · rw [h.2]; rfl

/-- Witness for C9 at a concrete two-game pairing: each of "A" and "B"
leads exactly one of the two games. -/
theorem claim_C9_witness :
    ((pairingRows 2 demoRes [11, 22] "A" "B").filter
        (fun r => decide (r.leader = "A"))).length = 2 / 2 ∧
    ((pairingRows 2 demoRes [11, 22] "A" "B").filter
        (fun r => decide (r.leader = "B"))).length = 2 / 2 :=
  (claim_C9_leader_alternation 2 demoRes [11, 22] ["A", "B"]).2.1 "A" "B"
    (by decide) rfl

/-! ## Claim C5 — game-end notifications of `play_game_capture_state` -/

/-- The two sides of a game state. -/
inductive Side
  | leader
  | follower
  deriving DecidableEq, Repr

/-- A bot state as the match runner sees it: the bound agent (`α` is the
agent identity type). -/
structure SBotState (α : Type) where
  impl : α

/-- Modelled from the spec: the engine's `GameState` (spec §6) as consumed
by the match runner — a leader bot state and a follower bot state. -/
structure SGameState (α : Type) where
  leader : SBotState α
  follower : SBotState α

/-- The bot state of a given side. -/
def sideState {α : Type} (gs : SGameState α) : Side → SBotState α
  | .leader => gs.leader
  | .follower => gs.follower

/-- Modelled from the spec: the trick loop of `play_game_capture_state` —
repeatedly apply the engine's opaque single-trick step (`step`, spec §6)
and ask its terminal check (`declare`, yielding the winning side and the
awarded match points) until a winner is declared; `fuel` bounds the loop,
`none` standing for a game that has not terminated within it. -/
def playLoop {α : Type} (step : SGameState α → SGameState α)
    (declare : SGameState α → Option (Side × Int)) :
    Nat → SGameState α → Option (SGameState α × Side × Int)
  | 0, _ => none
  | fuel + 1, gs =>
    match declare (step gs) with
    | some sp => some (step gs, sp.1, sp.2)
    | none => playLoop step declare fuel (step gs)

/-- Modelled from the spec: `play_game_capture_state` minus the deck
dealing (spec §4.4) — run the trick loop, then issue the two game-end
notifications exactly as the source does: `notify_game_end(won=True)` to
the declared winner's implementation, then `notify_game_end(False)` to the
final state's follower implementation.  Returns the winner's agent, the
match points, the final state, and the notification log. -/
def play_game_capture_state {α : Type} (step : SGameState α → SGameState α)
    (declare : SGameState α → Option (Side × Int)) (fuel : Nat) (gs0 : SGameState α) :
    Option (α × Int × SGameState α × List (α × Bool)) :=
  match playLoop step declare fuel gs0 with
  | none => none
  | some (final, side, pts) =>
    some ((sideState final side).impl, pts, final,
      [((sideState final side).impl, true), (final.follower.impl, false)])

/-- When the loop declares, the declaration is the terminal check of the
final state. -/
theorem playLoop_declared {α : Type} (step : SGameState α → SGameState α)
    (declare : SGameState α → Option (Side × Int)) :
    ∀ (fuel : Nat) (gs final : SGameState α) (side : Side) (pts : Int),
      playLoop step declare fuel gs = some (final, side, pts) →
        declare final = some (side, pts) := by
  intro fuel
  induction fuel with
  | zero => intro gs final side pts h; simp [playLoop] at h
  | succ fuel ih =>
    intro gs final side pts h
    simp only [playLoop] at h
    cases hd : declare (step gs) with
    | some sp =>
      rw [hd] at h
      simp only [Option.some.injEq, Prod.mk.injEq] at h
      obtain ⟨h1, h2, h3⟩ := h
      subst h1; subst h2; subst h3
      exact hd
    | none =>
      rw [hd] at h
      exact ih (step gs) final side pts h

/-- A trick step swaps or keeps the two agents but never invents new ones;
the loop therefore preserves the (unordered) pair of agent identities. -/
theorem playLoop_impls {α : Type} (step : SGameState α → SGameState α)
    (declare : SGameState α → Option (Side × Int))
    (hswap : ∀ gs : SGameState α,
      ((step gs).leader.impl = gs.leader.impl ∧ (step gs).follower.impl = gs.follower.impl)
      ∨ ((step gs).leader.impl = gs.follower.impl ∧ (step gs).follower.impl = gs.leader.impl)) :
    ∀ (fuel : Nat) (gs : SGameState α) (final : SGameState α) (side : Side) (pts : Int),
      playLoop step declare fuel gs = some (final, side, pts) →
        (final.leader.impl = gs.leader.impl ∧ final.follower.impl = gs.follower.impl)
        ∨ (final.leader.impl = gs.follower.impl ∧ final.follower.impl = gs.leader.impl) := by
  intro fuel
  induction fuel with
  | zero => intro gs final side pts h; simp [playLoop] at h
  | succ fuel ih =>
    intro gs final side pts h
    simp only [playLoop] at h
    cases hd : declare (step gs) with
    | some sp =>
      rw [hd] at h
      simp only [Option.some.injEq, Prod.mk.injEq] at h
      obtain ⟨h1, _, _⟩ := h
      subst h1
      exact hswap gs
    | none =>
      rw [hd] at h
      rcases ih (step gs) final side pts h with ⟨h1, h2⟩ | ⟨h1, h2⟩ <;>
        rcases hswap gs with ⟨h3, h4⟩ | ⟨h3, h4⟩
      · exact Or.inl ⟨h1.trans h3, h2.trans h4⟩
      · exact Or.inr ⟨h1.trans h3, h2.trans h4⟩
      · exact Or.inr ⟨h1.trans h4, h2.trans h3⟩
      · exact Or.inl ⟨h1.trans h4, h2.trans h3⟩

/-- Claim C5: for every completed game (the loop returns), provided the
engine's trick step only permutes the two agents, the two starting agents
are distinct, and the engine declares the final state's leader the winner
(the upstream engine's guarantee — the trick winner leads the next trick),
`play_game_capture_state` notifies the declared winner exactly once with
`won = true` and the other, losing agent exactly once with `won = false`,
and notifies nothing else. -/
theorem claim_C5_notifications {α : Type} [DecidableEq α]
    (step : SGameState α → SGameState α)
    (declare : SGameState α → Option (Side × Int)) (fuel : Nat) (gs0 : SGameState α)
    (w : α) (pts : Int) (final : SGameState α) (log : List (α × Bool))
    (hswap : ∀ gs : SGameState α,
      ((step gs).leader.impl = gs.leader.impl ∧ (step gs).follower.impl = gs.follower.impl)
      ∨ ((step gs).leader.impl = gs.follower.impl ∧ (step gs).follower.impl = gs.leader.impl))
    (hdistinct : gs0.leader.impl ≠ gs0.follower.impl)
    (hdecl : ∀ (gs : SGameState α) (side : Side) (p : Int),
      declare gs = some (side, p) → side = Side.leader)
    (hrun : play_game_capture_state step declare fuel gs0 = some (w, pts, final, log)) :
    w = final.leader.impl ∧
    final.leader.impl ≠ final.follower.impl ∧
    log = [(final.leader.impl, true), (final.follower.impl, false)] ∧
    log.count (w, true) = 1 ∧
    log.count (final.follower.impl, false) = 1 ∧
    (∀ x : α, x ≠ w → x ≠ final.follower.impl → ∀ won : Bool, (x, won) ∉ log) := by
  unfold play_game_capture_state at hrun
  cases hloop : playLoop step declare fuel gs0 with
  | none => rw [hloop] at hrun; simp at hrun
  | some fsp =>
    obtain ⟨final2, side, pts2⟩ := fsp
    rw [hloop] at hrun
    simp only [Option.some.injEq, Prod.mk.injEq] at hrun
    obtain ⟨hw, hpts, hfinal, hlog⟩ := hrun
    subst hfinal
    have hside : side = Side.leader :=
      hdecl final2 side pts2 (playLoop_declared step declare fuel gs0 final2 side pts2 hloop)
    subst hside
    have hne : final2.leader.impl ≠ final2.follower.impl := by
      rcases playLoop_impls step declare hswap fuel gs0 final2 Side.leader pts2 hloop with
        ⟨h1, h2⟩ | ⟨h1, h2⟩
      · rw [h1, h2]; exact hdistinct
      · rw [h1, h2]; exact fun h => hdistinct h.symm
    have hwl : w = final2.leader.impl := hw.symm
    subst hlog
    refine ⟨hwl, hne, rfl, ?_, ?_, ?_⟩
    · rw [hwl]
      simp [List.count_cons, sideState]
    · simp [List.count_cons, sideState]
    · intro x hx1 hx2 won
      simp only [List.mem_cons, List.not_mem_nil, or_false, List.mem_singleton]
      rintro (h | h)
      · rw [Prod.mk.injEq] at h
        exact hx1 (by rw [hwl]; exact h.1)
      · rw [Prod.mk.injEq] at h
        exact hx2 h.1

/-- A concrete two-agent game state: agent 0 leads, agent 1 follows. -/
def demoGS : SGameState Nat :=
  { leader := { impl := 0 }, follower := { impl := 1 } }

/-- Witness for C5: a one-trick game (identity step, immediate declaration
of the leader with 3 match points) notifies agent 0 once with `won = true`
and agent 1 once with `won = false`. -/
theorem claim_C5_witness :
    (0 : Nat) = demoGS.leader.impl ∧
    demoGS.leader.impl ≠ demoGS.follower.impl ∧
    ([((0 : Nat), true), ((1 : Nat), false)]
      = [(demoGS.leader.impl, true), (demoGS.follower.impl, false)]) ∧
    ([((0 : Nat), true), ((1 : Nat), false)]).count (0, true) = 1 ∧
    ([((0 : Nat), true), ((1 : Nat), false)]).count (demoGS.follower.impl, false) = 1 := by
  have h := claim_C5_notifications (fun gs => gs) (fun _ => some (Side.leader, 3)) 1 demoGS
    0 3 demoGS [(0, true), (1, false)]
    (fun _ => Or.inl ⟨rfl, rfl⟩) (by decide)
    (fun gs side p hp => by
      simp only [Option.some.injEq, Prod.mk.injEq] at hp
      exact hp.1.symm)
    rfl
  exact ⟨h.1, h.2.1, h.2.2.1, h.2.2.2.1, h.2.2.2.2.1⟩
